import Mathlib

/-
Verification of the N-body simulation core of the 3bodyproblem3D repository
(src/src/components/ThreeBodyScene.tsx).  JavaScript numbers are modelled as
real numbers (exact arithmetic); the three.js Vector3 operations used by the
code are embedded componentwise.  Math.random() draws are modelled as explicit
oracle parameters ("injectable tie-break noise"), so every theorem quantifies
over (or fixes) the random values the code would have drawn.
-/

noncomputable section

set_option autoImplicit false

namespace ThreeBody

/-- Componentwise embedding of the three.js `Vector3` values the simulation
stores (position, velocity, acceleration). -/
structure Vec3 where
  x : ℝ
  y : ℝ
  z : ℝ

namespace Vec3

def zero : Vec3 := ⟨0, 0, 0⟩

instance : Inhabited Vec3 := ⟨zero⟩

/-- `a.add b`: three.js `add`. -/
def add (a b : Vec3) : Vec3 := ⟨a.x + b.x, a.y + b.y, a.z + b.z⟩

/-- `a.sub b`: three.js `sub` (also the effect of `copy(b).sub(a)` read off
as `b - a`). -/
def sub (a b : Vec3) : Vec3 := ⟨a.x - b.x, a.y - b.y, a.z - b.z⟩

/-- `a.smul s`: three.js `multiplyScalar(s)`. -/
def smul (a : Vec3) (s : ℝ) : Vec3 := ⟨a.x * s, a.y * s, a.z * s⟩

/-- `a.addScaled v s`: three.js `addScaledVector(v, s)`. -/
def addScaled (a v : Vec3) (s : ℝ) : Vec3 :=
  ⟨a.x + v.x * s, a.y + v.y * s, a.z + v.z * s⟩

/-- three.js `dot`. -/
def dot (a b : Vec3) : ℝ := a.x * b.x + a.y * b.y + a.z * b.z

/-- three.js `lengthSq`: `x*x + y*y + z*z`. -/
def lengthSq (a : Vec3) : ℝ := a.x * a.x + a.y * a.y + a.z * a.z

/-- three.js `length`. -/
def length (a : Vec3) : ℝ := Real.sqrt a.lengthSq

/-- `v.neg`: negation, used only in proofs about Newton's third law. -/
def neg (a : Vec3) : Vec3 := ⟨-a.x, -a.y, -a.z⟩

theorem ext_iff {a b : Vec3} : a = b ↔ a.x = b.x ∧ a.y = b.y ∧ a.z = b.z := by
  cases a; cases b; simp

theorem lengthSq_nonneg (a : Vec3) : 0 ≤ a.lengthSq := by
  have hx := mul_self_nonneg a.x
  have hy := mul_self_nonneg a.y
  have hz := mul_self_nonneg a.z
  unfold lengthSq; linarith

theorem lengthSq_eq_zero_iff {a : Vec3} : a.lengthSq = 0 ↔ a = zero := by
  constructor
  · intro h
    have hx := mul_self_nonneg a.x
    have hy := mul_self_nonneg a.y
    have hz := mul_self_nonneg a.z
    unfold lengthSq at h
    have hx0 : a.x * a.x = 0 := by linarith
    have hy0 : a.y * a.y = 0 := by linarith
    have hz0 : a.z * a.z = 0 := by linarith
    have := mul_self_eq_zero.mp hx0
    have := mul_self_eq_zero.mp hy0
    have := mul_self_eq_zero.mp hz0
    cases a
    simp_all [zero]
  · intro h; subst h; simp [lengthSq, zero]

theorem length_nonneg (a : Vec3) : 0 ≤ a.length := Real.sqrt_nonneg _

theorem length_eq_zero_iff {a : Vec3} : a.length = 0 ↔ a = zero := by
  unfold length
  rw [Real.sqrt_eq_zero (lengthSq_nonneg a)]
  exact lengthSq_eq_zero_iff

theorem sub_eq_zero_iff {a b : Vec3} : a.sub b = zero ↔ a = b := by
  cases a; cases b
  simp [sub, zero, sub_eq_zero, and_assoc]

theorem lengthSq_neg (a : Vec3) : a.neg.lengthSq = a.lengthSq := by
  cases a; simp only [neg, lengthSq]; ring

theorem sub_neg (a b : Vec3) : (a.sub b).neg = b.sub a := by
  cases a; cases b; simp [sub, neg]

theorem length_xaxis (a : ℝ) : (Vec3.mk a 0 0).length = |a| := by
  have : (Vec3.mk a 0 0).lengthSq = a ^ 2 := by simp only [lengthSq]; ring
  rw [length, this, Real.sqrt_sq_eq_abs]

theorem lengthSq_smul (a : Vec3) (s : ℝ) : (a.smul s).lengthSq = a.lengthSq * s ^ 2 := by
  cases a; simp only [smul, lengthSq]; ring

theorem length_smul (a : Vec3) (s : ℝ) : (a.smul s).length = a.length * |s| := by
  rw [length, lengthSq_smul, Real.sqrt_mul (lengthSq_nonneg a), Real.sqrt_sq_eq_abs, length]

end Vec3

/-- The `BodyState` record of src/src/types (`src/unnamed/part_000`), minus the
purely presentational React `ref` back-reference.  Optional TS fields are
`Option`s; `id` is a JS number (the add-body operation creates fractional
ids). -/
structure Body where
  id : ℝ
  mass : ℝ
  position : Vec3
  velocity : Vec3
  color : String
  shape : String
  radius : Option ℝ
  collisionRadius : Option ℝ

instance : Inhabited Body :=
  ⟨⟨0, 0, Vec3.zero, Vec3.zero, "", "", none, none⟩⟩

/-- JS `a || b` for a possibly-absent number: an absent value and the falsy
number `0` both fall through to the default. -/
def jsOr (a : Option ℝ) (b : ℝ) : ℝ :=
  match a with
  | none => b
  | some x => if x = 0 then b else x

/-- JS `x || 1` applied to a nonnegative number, as used in
`divideScalar(dist || 1)` and in three.js `normalize` (`length() || 1`). -/
def jsDivisor (d : ℝ) : ℝ := if d = 0 then 1 else d

theorem jsDivisor_ne_zero (d : ℝ) : jsDivisor d ≠ 0 := by
  unfold jsDivisor
  split
  · exact one_ne_zero
  · assumption

theorem jsDivisor_of_ne {d : ℝ} (h : d ≠ 0) : jsDivisor d = d := if_neg h

/-- three.js `normalize()`: `divideScalar(length() || 1)`. -/
def Vec3.normalize (a : Vec3) : Vec3 := a.smul (1 / jsDivisor a.length)

/-! ## Force/acceleration evaluator (`calcAcceleration`, lines 234-271) -/

/-- The softening constant of `calcAcceleration` (line 267). -/
def softening : ℝ := 2.0

/-- The force denominator of `calcAcceleration` (line 268):
`Math.pow(distSq + softening * softening, 1.5)`, with `Math.pow` on a
positive base embedded as the real power. -/
def distCubedOf (distSq : ℝ) : ℝ := (distSq + softening * softening) ^ (1.5 : ℝ)

/-- The displacement `diff` of `calcAcceleration` after the degenerate-
coincidence substitution (lines 242-252): if `|r_B - r_A|² = 0` the random
draw `rnd` replaces it. -/
def forceDiff (rnd : Vec3) (bodyA bodyB : Body) : Vec3 :=
  if (bodyB.position.sub bodyA.position).lengthSq = 0 then rnd
  else bodyB.position.sub bodyA.position

/-- The pairwise collision threshold `radius_A + radius_B`, with the TS
`collisionRadius ?? 0` default (lines 256-258 and 293-294). -/
def minSeparation (bodyA bodyB : Body) : ℝ :=
  bodyA.collisionRadius.getD 0 + bodyB.collisionRadius.getD 0

/-- The contact-clamping test of `calcAcceleration` (lines 255-260):
collision handling on, `dist < minSeparation` and `minSeparation > 0`. -/
def clampCond (ce : Bool) (rnd : Vec3) (bodyA bodyB : Body) : Prop :=
  ce = true ∧ Real.sqrt (forceDiff rnd bodyA bodyB).lengthSq < minSeparation bodyA bodyB
    ∧ 0 < minSeparation bodyA bodyB

instance (ce rnd bodyA bodyB) : Decidable (clampCond ce rnd bodyA bodyB) := by
  unfold clampCond; infer_instance

/-- The displacement actually fed to the gravity formula: clamped pairs use
`diff.normalize().multiplyScalar(minSeparation)` (line 261). -/
def effDiff (ce : Bool) (rnd : Vec3) (bodyA bodyB : Body) : Vec3 :=
  if clampCond ce rnd bodyA bodyB then
    (forceDiff rnd bodyA bodyB).normalize.smul (minSeparation bodyA bodyB)
  else forceDiff rnd bodyA bodyB

/-- The squared distance actually fed to the gravity formula: clamped pairs
use `minSeparation²` (lines 262-263). -/
def effDistSq (ce : Bool) (rnd : Vec3) (bodyA bodyB : Body) : ℝ :=
  if clampCond ce rnd bodyA bodyB then minSeparation bodyA bodyB * minSeparation bodyA bodyB
  else (forceDiff rnd bodyA bodyB).lengthSq

/-- One `j`-iteration of `calcAcceleration`: the acceleration contribution of
`bodyB` on `bodyA`, `diff * (G * mass_B) / distCubed` (line 269). -/
def accContrib (g : ℝ) (ce : Bool) (rnd : Vec3) (bodyA bodyB : Body) : Vec3 :=
  (effDiff ce rnd bodyA bodyB).smul (g * bodyB.mass / distCubedOf (effDistSq ce rnd bodyA bodyB))

/-- `calcAcceleration(bodyIdx, targetVec)` (lines 234-271): zero the target,
then accumulate `accContrib` over every other body.  `rnd j` supplies the
degeneracy-breaking draw of iteration `j`. -/
def calcAcceleration (g : ℝ) (ce : Bool) (bodies : List Body) (rnd : ℕ → Vec3)
    (bodyIdx : ℕ) : Vec3 :=
  (List.range bodies.length).foldl
    (fun acc j =>
      if bodyIdx = j then acc
      else acc.add (accContrib g ce (rnd j) (bodies.getD bodyIdx default) (bodies.getD j default)))
    Vec3.zero

/-! ## Collision resolver (`resolveCollisions`, lines 273-318) -/

/-- The resolver's displacement `collisionDiff` after the zero-distance
substitution (lines 281-291). -/
def collisionDiff (rnd : Vec3) (bodyA bodyB : Body) : Vec3 :=
  if (bodyB.position.sub bodyA.position).length = 0 then rnd
  else bodyB.position.sub bodyA.position

/-- The resolver's `dist` (recomputed after a substitution, lines 282/290). -/
def collisionDist (rnd : Vec3) (bodyA bodyB : Body) : ℝ := (collisionDiff rnd bodyA bodyB).length

/-- The resolver's unit normal: `collisionDiff.divideScalar(dist || 1)`
(line 297). -/
def collisionNormal (rnd : Vec3) (bodyA bodyB : Body) : Vec3 :=
  (collisionDiff rnd bodyA bodyB).smul (1 / jsDivisor (collisionDist rnd bodyA bodyB))

/-- `separationVec = normal * (penetration * 0.5)` (lines 298-299). -/
def separationVec (rnd : Vec3) (bodyA bodyB : Body) : Vec3 :=
  (collisionNormal rnd bodyA bodyB).smul
    ((minSeparation bodyA bodyB - collisionDist rnd bodyA bodyB) * 0.5)

/-- `velAlongNormal = (velocity_A - velocity_B) · normal` (lines 304-305). -/
def velAlongNormal (rnd : Vec3) (bodyA bodyB : Body) : ℝ :=
  (bodyA.velocity.sub bodyB.velocity).dot (collisionNormal rnd bodyA bodyB)

/-- The impulse denominator `1/mass_A + 1/mass_B` (line 310). -/
def impulseDenom (bodyA bodyB : Body) : ℝ := 1 / bodyA.mass + 1 / bodyB.mass

/-- `impulseMag = -(1 + restitution) * velAlongNormal / (1/m_A + 1/m_B)` with
`restitution = 0.8` (lines 307-310). -/
def impulseMag (rnd : Vec3) (bodyA bodyB : Body) : ℝ :=
  (-(1 + 0.8) * velAlongNormal rnd bodyA bodyB) / impulseDenom bodyA bodyB

/-- `bodyA.position.addScaledVector(separationVec, -1)` (line 301): the
positional half of the pair resolution for the first body. -/
def sepBodyA (rnd : Vec3) (bodyA bodyB : Body) : Body :=
  { bodyA with position := bodyA.position.addScaled (separationVec rnd bodyA bodyB) (-1) }

/-- `bodyB.position.addScaledVector(separationVec, 1)` (line 302). -/
def sepBodyB (rnd : Vec3) (bodyA bodyB : Body) : Body :=
  { bodyB with position := bodyB.position.addScaled (separationVec rnd bodyA bodyB) 1 }

/-- `impulseVec = normal * impulseMag` (line 312). -/
def impulseVec (rnd : Vec3) (bodyA bodyB : Body) : Vec3 :=
  (collisionNormal rnd bodyA bodyB).smul (impulseMag rnd bodyA bodyB)

/-- One unordered-pair step of `resolveCollisions` (lines 281-315): skip
non-overlapping pairs (`dist >= minDist`), otherwise push the bodies apart by
half the penetration each and, when `velAlongNormal < 0`, apply the
restitution impulse (the separation step changes positions only, so the
impulse reads the original velocities).  Returns the updated
`(bodyA, bodyB)`. -/
def resolvePair (rnd : Vec3) (bodyA bodyB : Body) : Body × Body :=
  if minSeparation bodyA bodyB ≤ collisionDist rnd bodyA bodyB then (bodyA, bodyB)
  else if velAlongNormal rnd bodyA bodyB < 0 then
    ({ sepBodyA rnd bodyA bodyB with
        velocity := bodyA.velocity.addScaled (impulseVec rnd bodyA bodyB) (-(1 / bodyA.mass)) },
     { sepBodyB rnd bodyA bodyB with
        velocity := bodyB.velocity.addScaled (impulseVec rnd bodyA bodyB) (1 / bodyB.mass) })
  else (sepBodyA rnd bodyA bodyB, sepBodyB rnd bodyA bodyB)

/-- `resolveCollisions` (lines 273-318): early return when collisions are
disabled, otherwise the in-place double loop over pairs `i < j`, embedded as
a fold that rewrites slots `i` and `j` of the body list.  `rnd i j` supplies
the zero-distance draw of pair `(i, j)`. -/
def resolveCollisions (ce : Bool) (rnd : ℕ → ℕ → Vec3) (bodies : List Body) : List Body :=
  if ce = false then bodies
  else
    (List.range bodies.length).foldl
      (fun bs i =>
        (List.range bs.length).foldl
          (fun bs' j =>
            if i + 1 ≤ j then
              let p := resolvePair (rnd i j) (bs'.getD i default) (bs'.getD j default)
              (bs'.set i p.1).set j p.2
            else bs')
          bs)
      bodies

/-! ## Integrator (`SimulationLoop`/`useFrame`, lines 208-366) -/

/-- `SUB_STEPS` (line 9). -/
def SUB_STEPS : ℕ := 8

/-- `dt = (0.016 * timeScale) / SUB_STEPS` (line 232). -/
def frameDt (timeScale : ℝ) : ℝ := 0.016 * timeScale / (SUB_STEPS : ℝ)

/-- The mutable state owned by the simulation loop: the body list and the
persistent `acceleration` map keyed by body id (line 224, a `useMemo` Map
that survives across sub-steps and frames). -/
structure SimState where
  bodies : List Body
  accMap : ℝ → Option Vec3

/-- `acceleration.get(id)!`; every id of a current body is present after the
ensure pass, so the (unreachable) missing case defaults to the zero vector. -/
def mapLookup (m : ℝ → Option Vec3) (id : ℝ) : Vec3 := (m id).getD Vec3.zero

/-- `acceleration.set(id, v)`. -/
def mapSet (m : ℝ → Option Vec3) (id : ℝ) (v : Vec3) : ℝ → Option Vec3 :=
  fun x => if x = id then some v else m x

/-- Lines 321-323: `bodies.forEach(b => if (!acceleration.has(b.id))
acceleration.set(b.id, new Vector3()))`. -/
def ensureMap (bodies : List Body) (m : ℝ → Option Vec3) : ℝ → Option Vec3 :=
  bodies.foldl
    (fun m' b => match m' b.id with
      | none => mapSet m' b.id Vec3.zero
      | some _ => m') m

/-- The ensure pass as a state transformer. -/
def ensurePhase (st : SimState) : SimState :=
  { st with accMap := ensureMap st.bodies st.accMap }

/-- The acceleration the first half-kick of a sub-step actually uses for body
`i` (lines 326-329): the cached map entry when its `lengthSq` is nonzero,
a fresh `calcAcceleration` otherwise. -/
def firstKickAcc (g : ℝ) (ce : Bool) (rnd : ℕ → Vec3) (bodies : List Body)
    (m : ℝ → Option Vec3) (i : ℕ) : Vec3 :=
  if (mapLookup m (bodies.getD i default).id).lengthSq = 0 then
    calcAcceleration g ce bodies rnd i
  else mapLookup m (bodies.getD i default).id

/-- Lines 325-330: the loop that (conditionally) refreshes each body's cached
acceleration before the first half-kick.  Writing back the reused value is
extensionally the same as the source's leave-in-place. -/
def firstKickMap (g : ℝ) (ce : Bool) (rnd : ℕ → ℕ → Vec3) (bodies : List Body)
    (m : ℝ → Option Vec3) : ℝ → Option Vec3 :=
  (List.range bodies.length).foldl
    (fun m' i => mapSet m' (bodies.getD i default).id (firstKickAcc g ce (rnd i) bodies m' i)) m

/-- The first-kick-acceleration pass as a state transformer. -/
def firstKickAccPhase (g : ℝ) (ce : Bool) (rnd : ℕ → ℕ → Vec3) (st : SimState) : SimState :=
  { st with accMap := firstKickMap g ce rnd st.bodies st.accMap }

/-- One body's half-kick plus drift (lines 332-337): `velocity += acc * 0.5*dt`
then `position += velocity * dt` using the half-kicked velocity. -/
def kickDriftBody (dt : ℝ) (m : ℝ → Option Vec3) (b : Body) : Body :=
  let v := b.velocity.addScaled (mapLookup m b.id) (0.5 * dt)
  { b with velocity := v, position := b.position.addScaled v dt }

/-- Lines 332-337 over the whole list (each iteration touches only body `i`,
so the in-place loop is the map). -/
def kickDriftPhase (dt : ℝ) (st : SimState) : SimState :=
  { st with bodies := st.bodies.map (kickDriftBody dt st.accMap) }

/-- Lines 339-341: unconditional `calcAcceleration` of every body at the new
positions, written into the map. -/
def recomputeMap (g : ℝ) (ce : Bool) (rnd : ℕ → ℕ → Vec3) (bodies : List Body)
    (m : ℝ → Option Vec3) : ℝ → Option Vec3 :=
  (List.range bodies.length).foldl
    (fun m' i => mapSet m' (bodies.getD i default).id (calcAcceleration g ce bodies (rnd i) i)) m

/-- The recompute pass as a state transformer. -/
def recomputePhase (g : ℝ) (ce : Bool) (rnd : ℕ → ℕ → Vec3) (st : SimState) : SimState :=
  { st with accMap := recomputeMap g ce rnd st.bodies st.accMap }

/-- One body's second half-kick (lines 343-347). -/
def secondKickBody (dt : ℝ) (m : ℝ → Option Vec3) (b : Body) : Body :=
  { b with velocity := b.velocity.addScaled (mapLookup m b.id) (0.5 * dt) }

/-- Lines 343-347 over the whole list. -/
def secondKickPhase (dt : ℝ) (st : SimState) : SimState :=
  { st with bodies := st.bodies.map (secondKickBody dt st.accMap) }

/-- Line 349: the resolver runs on the updated bodies. -/
def collisionPhase (ce : Bool) (rnd : ℕ → ℕ → Vec3) (st : SimState) : SimState :=
  { st with bodies := resolveCollisions ce rnd st.bodies }

/-- The random draws one sub-step may consume, one family per phase. -/
structure StepRnd where
  kick : ℕ → ℕ → Vec3
  recompute : ℕ → ℕ → Vec3
  collide : ℕ → ℕ → Vec3

/-- The intermediate state after the ensure, first-kick-acceleration and
kick/drift passes of a sub-step (lines 321-337). -/
def midStep (g : ℝ) (ce : Bool) (r : StepRnd) (dt : ℝ) (st : SimState) : SimState :=
  kickDriftPhase dt (firstKickAccPhase g ce r.kick (ensurePhase st))

/-- One iteration of the `for (let step = 0; step < SUB_STEPS; step++)` loop
(lines 320-350). -/
def subStep (g : ℝ) (ce : Bool) (r : StepRnd) (dt : ℝ) (st : SimState) : SimState :=
  collisionPhase ce r.collide
    (secondKickPhase dt (recomputePhase g ce r.recompute (midStep g ce r dt st)))

/-- `n` consecutive sub-steps with fixed `G`, `dt` and collision flag; one
`useFrame` invocation performs `SUB_STEPS = 8` of them, so `N` frames are
`runSteps (8 * N)`. -/
def runSteps (g : ℝ) (ce : Bool) (rs : ℕ → StepRnd) (dt : ℝ) : ℕ → SimState → SimState
  | 0, st => st
  | n + 1, st => subStep g ce (rs n) dt (runSteps g ce rs dt n st)

/-- Modelled from the spec (§8): the conserved quantity of claim C3, the
total momentum `Σ mass_i * velocity_i` of a body list. -/
def momentum (bodies : List Body) : Vec3 :=
  bodies.foldl (fun p b => p.add (b.velocity.smul b.mass)) Vec3.zero

/-! ## Scenario generator (`getInitialBodies`, lines 45-206) -/

/-- The scenario presets (line 12). -/
inductive Scenario where
  | figure8
  | twobody
  | chaotic
  | galaxy
  | ternary

/-- The `COLORS` palette (lines 30-38), as the `Object.keys` list paired with
the hex values. -/
def COLORS : List (String × String) :=
  [("cyan", "#00f3ff"), ("magenta", "#ff00aa"), ("gold", "#ffd700"),
   ("white", "#ffffff"), ("orange", "#ff8800"), ("purple", "#aa00ff"),
   ("green", "#00ff88")]

/-- Hex value of a palette key. -/
def colorOf (k : String) : String := ((COLORS.lookup k).getD "")

/-- `getRandomColor` (lines 40-43): `keys[Math.floor(random * keys.length)]`,
for a single draw `r`. -/
def getRandomColor (r : ℝ) : String :=
  colorOf ((COLORS.map Prod.fst).getD (Int.toNat ⌊r * (COLORS.length : ℝ)⌋) "cyan")

/-- `FIGURE8_BASE_POSITIONS` (lines 14-18). -/
def FIGURE8_BASE_POSITIONS : List Vec3 :=
  [⟨-0.97000436, 0, 0.24308753⟩, ⟨0.97000436, 0, -0.24308753⟩, ⟨0, 0, 0⟩]

/-- `FIGURE8_BASE_VELOCITIES` (lines 20-24). -/
def FIGURE8_BASE_VELOCITIES : List Vec3 :=
  [⟨0.466203685, 0, 0.43236573⟩, ⟨0.466203685, 0, 0.43236573⟩,
   ⟨-0.93240737, 0, -0.86473146⟩]

/-- `FIGURE8_SCALE` (line 26). -/
def FIGURE8_SCALE : ℝ := 6

/-- `FIGURE8_VELOCITY_SCALE = 1 / Math.sqrt(FIGURE8_SCALE)` (line 27). -/
def FIGURE8_VELOCITY_SCALE : ℝ := 1 / Real.sqrt FIGURE8_SCALE

/-- One chaotic-preset body (lines 67-115): `mass = 10 + r*5`, each position
component `r*30 - 15`, each velocity component `r*1 - 0.5`.  Body `k` uses
draws `7k ..< 7k+7` in source evaluation order. -/
def chaoticBody (rnd : ℕ → ℝ) (k : ℕ) (colorK : String) : Body :=
  { id := (k : ℝ) + 1, mass := 10 + rnd (7 * k) * 5,
    position := ⟨rnd (7 * k + 1) * 30 - 15, rnd (7 * k + 2) * 30 - 15, rnd (7 * k + 3) * 30 - 15⟩,
    velocity := ⟨rnd (7 * k + 4) * 1 - 0.5, rnd (7 * k + 5) * 1 - 0.5, rnd (7 * k + 6) * 1 - 0.5⟩,
    color := colorK, shape := "sphere", radius := none, collisionRadius := none }

/-- The galaxy preset's central body (lines 150-159). -/
def galaxyCenter : Body :=
  { id := 0, mass := 500, position := Vec3.zero, velocity := Vec3.zero,
    color := colorOf "purple", shape := "sphere", radius := some 3, collisionRadius := none }

/-- One galaxy star (lines 162-186): random ring angle and distance, orbital
speed `sqrt(3 * 500 / dist)`, `mass = 0.1 + r*0.5`.  Star `i` uses draws
`6i ..< 6i+6` in source evaluation order (angle, dist, mass, y, color,
radius). -/
def galaxyStar (rnd : ℕ → ℝ) (i : ℕ) : Body :=
  let angle := rnd (6 * i) * Real.pi * 2
  let dist := 20 + rnd (6 * i + 1) * 40
  let speed := Real.sqrt (3 * 500 / dist)
  { id := (i : ℝ) + 1, mass := 0.1 + rnd (6 * i + 2) * 0.5,
    position := ⟨Real.cos angle * dist, (rnd (6 * i + 3) - 0.5) * 2, Real.sin angle * dist⟩,
    velocity := ⟨-Real.sin angle * speed, 0, Real.cos angle * speed⟩,
    color := getRandomColor (rnd (6 * i + 4)), shape := "sphere",
    radius := some (0.2 + rnd (6 * i + 5) * 0.2), collisionRadius := none }

/-- One figure-eight body (lines 193-203): unit mass, base position scaled by
`FIGURE8_SCALE`, base velocity scaled by `FIGURE8_VELOCITY_SCALE`,
`collisionRadius: 0.5`. -/
def figure8Body (idx : ℕ) : Body :=
  { id := (idx : ℝ) + 1, mass := 1,
    position := (FIGURE8_BASE_POSITIONS.getD idx Vec3.zero).smul FIGURE8_SCALE,
    velocity := (FIGURE8_BASE_VELOCITIES.getD idx Vec3.zero).smul FIGURE8_VELOCITY_SCALE,
    color := ([colorOf "cyan", colorOf "magenta", colorOf "gold"].getD idx ""),
    shape := "sphere", radius := none, collisionRadius := some 0.5 }

/-- `getInitialBodies` (lines 45-206).  `rnd` supplies the `Math.random()`
draws of the randomized presets. -/
def getInitialBodies (rnd : ℕ → ℝ) : Scenario → List Body
  | Scenario.twobody =>
      [{ id := 1, mass := 20, position := ⟨15, 0, 0⟩, velocity := ⟨0, 0.8, 0⟩,
         color := colorOf "cyan", shape := "sphere", radius := none, collisionRadius := none },
       { id := 2, mass := 20, position := ⟨-15, 0, 0⟩, velocity := ⟨0, -0.8, 0⟩,
         color := colorOf "magenta", shape := "sphere", radius := none, collisionRadius := none }]
  | Scenario.chaotic =>
      [chaoticBody rnd 0 (colorOf "cyan"), chaoticBody rnd 1 (colorOf "magenta"),
       chaoticBody rnd 2 (colorOf "gold")]
  | Scenario.ternary =>
      [{ id := 1, mass := 100, position := Vec3.zero, velocity := Vec3.zero,
         color := colorOf "gold", shape := "sphere", radius := some 2, collisionRadius := none },
       { id := 2, mass := 10, position := ⟨30, 0, 0⟩, velocity := ⟨0, 0, 2.5⟩,
         color := colorOf "cyan", shape := "sphere", radius := some 1, collisionRadius := none },
       { id := 3, mass := 1, position := ⟨33, 0, 0⟩, velocity := ⟨0, 0, 2.5 + 1.5⟩,
         color := colorOf "white", shape := "sphere", radius := some 0.4, collisionRadius := none }]
  | Scenario.galaxy => galaxyCenter :: (List.range 100).map (galaxyStar rnd)
  | Scenario.figure8 => (List.range 3).map figure8Body

/-! ## Host initialization and add-body (`ThreeBodyScene`, lines 471-538) -/

/-- The perturbation offset added to a position when "Butterfly Effect" was
requested (lines 477-484): each component `(r - 0.5) * 0.1`. -/
def perturbPos (rnd : ℕ → ℝ) (i : ℕ) : Vec3 :=
  ⟨(rnd (6 * i) - 0.5) * 0.1, (rnd (6 * i + 1) - 0.5) * 0.1, (rnd (6 * i + 2) - 0.5) * 0.1⟩

/-- The perturbation offset added to a velocity (lines 485-491): each
component `(r - 0.5) * 0.01`. -/
def perturbVel (rnd : ℕ → ℝ) (i : ℕ) : Vec3 :=
  ⟨(rnd (6 * i + 3) - 0.5) * 0.01, (rnd (6 * i + 4) - 0.5) * 0.01, (rnd (6 * i + 5) - 0.5) * 0.01⟩

/-- The per-body initialization of the `useEffect` (lines 473-503): optional
perturbation, then `radius: data.radius || 0.8` and
`collisionRadius: data.collisionRadius || 0.5`. -/
def initBody (perturb : Bool) (rnd : ℕ → ℝ) (i : ℕ) (data : Body) : Body :=
  { data with
    position := if perturb then data.position.add (perturbPos rnd i) else data.position,
    velocity := if perturb then data.velocity.add (perturbVel rnd i) else data.velocity,
    shape := "sphere",
    radius := some (jsOr data.radius 0.8),
    collisionRadius := some (jsOr data.collisionRadius 0.5) }

/-- `initialData.map(...)` of the `useEffect` (lines 472-503), with the body
index threading the perturbation draws. -/
def initializeBodies (perturb : Bool) (rnd : ℕ → ℝ) : ℕ → List Body → List Body
  | _, [] => []
  | i, d :: ds => initBody perturb rnd i d :: initializeBodies perturb rnd (i + 1) ds

/-- `handleAddBody` (lines 517-538): the appended random body, for a frozen
set of draws (id, mass, position, velocity, color, display radius in source
evaluation order) and the current body count. -/
def handleAddBody (rnd : ℕ → ℝ) (numBodies : ℕ) : Body :=
  { id := (numBodies : ℝ) + 1 + rnd 0, mass := 5 + rnd 1 * 10,
    position := ⟨rnd 2 * 40 - 20, rnd 3 * 40 - 20, rnd 4 * 40 - 20⟩,
    velocity := ⟨rnd 5 * 1 - 0.5, rnd 6 * 1 - 0.5, rnd 7 * 1 - 0.5⟩,
    color := getRandomColor (rnd 8), shape := "sphere",
    radius := some (0.6 + rnd 9 * 0.4), collisionRadius := some 0.5 }

/-! ## Basic computation lemmas -/

namespace Vec3

theorem zero_add (a : Vec3) : Vec3.zero.add a = a := by
  cases a; simp [add, zero]

theorem add_zero (a : Vec3) : a.add Vec3.zero = a := by
  cases a; simp [add, zero]

theorem addScaled_zero_right (a v : Vec3) : a.addScaled v 0 = a := by
  cases a; simp [addScaled]

end Vec3

theorem Vec3.smul_smul (v : Vec3) (s t : ℝ) : (v.smul s).smul t = v.smul (s * t) := by
  cases v
  rw [Vec3.ext_iff]
  simp only [Vec3.smul]
  refine ⟨?_, ?_, ?_⟩ <;> ring

theorem Vec3.add_self_smul (v : Vec3) (t : ℝ) : v.add (v.smul t) = v.smul (1 + t) := by
  cases v
  rw [Vec3.ext_iff]
  simp only [Vec3.smul, Vec3.add]
  refine ⟨?_, ?_, ?_⟩ <;> ring

theorem Vec3.sep_shift (p q S : Vec3) :
    (q.addScaled S 1).sub (p.addScaled S (-1)) = (q.sub p).add (S.smul 2) := by
  cases p; cases q; cases S
  rw [Vec3.ext_iff]
  simp only [Vec3.smul, Vec3.add, Vec3.sub, Vec3.addScaled]
  refine ⟨?_, ?_, ?_⟩ <;> ring

theorem range_two : List.range 2 = [0, 1] := by decide

theorem range_three : List.range 3 = [0, 1, 2] := by decide

/-- rpow with exponent `1.5` squared is the cube, for a positive base. -/
theorem rpow15_sq {x : ℝ} (hx : 0 < x) : (x ^ (1.5 : ℝ)) ^ 2 = x ^ 3 := by
  have h3 : (1.5 : ℝ) + 1.5 = ((3 : ℕ) : ℝ) := by norm_num
  rw [sq, ← Real.rpow_add hx, h3, Real.rpow_natCast]

theorem rpow15_pos {x : ℝ} (hx : 0 < x) : 0 < x ^ (1.5 : ℝ) :=
  Real.rpow_pos_of_pos hx _

theorem four_rpow15 : (4 : ℝ) ^ (1.5 : ℝ) = 8 := by
  have hp : (0 : ℝ) < (4 : ℝ) ^ (1.5 : ℝ) := rpow15_pos (by norm_num)
  have hsq : ((4 : ℝ) ^ (1.5 : ℝ)) ^ 2 = 64 := by
    rw [rpow15_sq (by norm_num : (0:ℝ) < 4)]; norm_num
  nlinarith [hp, hsq]

theorem distCubedOf_ge_eight {dsq : ℝ} (h : 0 ≤ dsq) : 8 ≤ distCubedOf dsq := by
  unfold distCubedOf softening
  have h4 : (4 : ℝ) ≤ dsq + 2.0 * 2.0 := by linarith
  have := Real.rpow_le_rpow (by norm_num : (0:ℝ) ≤ 4) h4 (by norm_num : (0:ℝ) ≤ 1.5)
  calc (8 : ℝ) = (4 : ℝ) ^ (1.5 : ℝ) := four_rpow15.symm
    _ ≤ _ := this

theorem distCubedOf_pos {dsq : ℝ} (h : 0 ≤ dsq) : 0 < distCubedOf dsq :=
  lt_of_lt_of_le (by norm_num) (distCubedOf_ge_eight h)

/-! ### Closed forms of the force contribution -/

theorem forceDiff_of_ne {rnd : Vec3} {A B : Body}
    (h : (B.position.sub A.position).lengthSq ≠ 0) :
    forceDiff rnd A B = B.position.sub A.position := if_neg h

/-- With collisions disabled the contact clamp never fires. -/
theorem clampCond_false {rnd : Vec3} {A B : Body} : ¬ clampCond false rnd A B := by
  intro h
  exact Bool.false_ne_true h.1

theorem accContrib_free {g : ℝ} {rnd : Vec3} {A B : Body}
    (h : (B.position.sub A.position).lengthSq ≠ 0) :
    accContrib g false rnd A B =
      (B.position.sub A.position).smul
        (g * B.mass / distCubedOf (B.position.sub A.position).lengthSq) := by
  unfold accContrib effDiff effDistSq
  rw [if_neg clampCond_false, if_neg clampCond_false, forceDiff_of_ne h]

/-- `calcAcceleration` on a two-element list, body 0. -/
theorem calcAcceleration_pair_left (g : ℝ) (ce : Bool) (rnd : ℕ → Vec3) (A B : Body) :
    calcAcceleration g ce [A, B] rnd 0 = accContrib g ce (rnd 1) A B := by
  unfold calcAcceleration
  simp [range_two, Vec3.zero_add]

/-- `calcAcceleration` on a two-element list, body 1. -/
theorem calcAcceleration_pair_right (g : ℝ) (ce : Bool) (rnd : ℕ → Vec3) (A B : Body) :
    calcAcceleration g ce [A, B] rnd 1 = accContrib g ce (rnd 0) B A := by
  unfold calcAcceleration
  simp [range_two, Vec3.zero_add]

/-- Newton's third law for a nondegenerate pair with collisions disabled:
the mass-weighted contributions cancel, whatever the (unused) random draws
are. -/
theorem accContrib_antisym {g : ℝ} (rnd rnd' : Vec3) {A B : Body}
    (h : A.position ≠ B.position) :
    ((accContrib g false rnd A B).smul A.mass).add
      ((accContrib g false rnd' B A).smul B.mass) = Vec3.zero := by
  have hd : (B.position.sub A.position).lengthSq ≠ 0 := by
    intro h0
    exact h (Vec3.sub_eq_zero_iff.mp (Vec3.lengthSq_eq_zero_iff.mp h0)).symm
  have hd' : (A.position.sub B.position).lengthSq ≠ 0 := by
    rw [← Vec3.sub_neg B.position A.position, Vec3.lengthSq_neg]
    exact hd
  rw [accContrib_free hd, accContrib_free hd']
  rw [← Vec3.sub_neg B.position A.position, Vec3.lengthSq_neg]
  cases hA : B.position.sub A.position with
  | mk dx dy dz =>
      simp only [Vec3.neg, Vec3.smul, Vec3.add, Vec3.zero, Vec3.mk.injEq]
      refine ⟨?_, ?_, ?_⟩ <;> ring

/-! ### Closed forms of the pair resolver -/

theorem resolvePair_of_no_overlap {rnd : Vec3} {A B : Body}
    (h : minSeparation A B ≤ collisionDist rnd A B) :
    resolvePair rnd A B = (A, B) := by
  unfold resolvePair; rw [if_pos h]

theorem resolvePair_of_overlap_separating {rnd : Vec3} {A B : Body}
    (h : ¬ minSeparation A B ≤ collisionDist rnd A B)
    (hv : ¬ velAlongNormal rnd A B < 0) :
    resolvePair rnd A B = (sepBodyA rnd A B, sepBodyB rnd A B) := by
  unfold resolvePair; rw [if_neg h, if_neg hv]

theorem collisionDist_nonneg (rnd : Vec3) (A B : Body) : 0 ≤ collisionDist rnd A B :=
  Vec3.length_nonneg _

/-- A body on the x-axis, for the concrete scenarios used below. -/
def xBody (id m x vx : ℝ) (cr : Option ℝ) : Body :=
  { id := id, mass := m, position := ⟨x, 0, 0⟩, velocity := ⟨vx, 0, 0⟩,
    color := "", shape := "sphere", radius := none, collisionRadius := cr }

/-- Geometry of an x-axis pair seen by the resolver, when the first body is to
the left of the second. -/
theorem xaxis_collision_data (rnd : Vec3) {A B : Body} {a b : ℝ}
    (hA : A.position = ⟨a, 0, 0⟩) (hB : B.position = ⟨b, 0, 0⟩) (hab : a < b) :
    collisionDiff rnd A B = ⟨b - a, 0, 0⟩ ∧
      collisionDist rnd A B = b - a ∧
      collisionNormal rnd A B = ⟨1, 0, 0⟩ := by
  have hsub : B.position.sub A.position = ⟨b - a, 0, 0⟩ := by
    rw [hA, hB]; simp [Vec3.sub]
  have hlen : (Vec3.mk (b - a) 0 0).length = b - a := by
    rw [Vec3.length_xaxis, abs_of_pos (by linarith)]
  have hlen0 : (B.position.sub A.position).length ≠ 0 := by
    rw [hsub, hlen]; intro h; linarith
  have hcd : collisionDiff rnd A B = ⟨b - a, 0, 0⟩ := by
    unfold collisionDiff
    rw [if_neg hlen0, hsub]
  have hdist : collisionDist rnd A B = b - a := by
    unfold collisionDist; rw [hcd, hlen]
  refine ⟨hcd, hdist, ?_⟩
  unfold collisionNormal
  rw [hcd, hdist, jsDivisor_of_ne (by intro h; linarith)]
  have hba : b - a ≠ 0 := by intro h; linarith
  simp only [Vec3.smul, Vec3.mk.injEq]
  constructor
  · field_simp
  · norm_num

/-- Geometry of an x-axis pair seen by the resolver, first body to the
right. -/
theorem xaxis_collision_data_rev (rnd : Vec3) {A B : Body} {a b : ℝ}
    (hA : A.position = ⟨a, 0, 0⟩) (hB : B.position = ⟨b, 0, 0⟩) (hab : b < a) :
    collisionDiff rnd A B = ⟨b - a, 0, 0⟩ ∧
      collisionDist rnd A B = a - b ∧
      collisionNormal rnd A B = ⟨-1, 0, 0⟩ := by
  have hsub : B.position.sub A.position = ⟨b - a, 0, 0⟩ := by
    rw [hA, hB]; simp [Vec3.sub]
  have hlen : (Vec3.mk (b - a) 0 0).length = a - b := by
    rw [Vec3.length_xaxis, abs_of_neg (by linarith)]; ring
  have hlen0 : (B.position.sub A.position).length ≠ 0 := by
    rw [hsub, hlen]; intro h; linarith
  have hcd : collisionDiff rnd A B = ⟨b - a, 0, 0⟩ := by
    unfold collisionDiff
    rw [if_neg hlen0, hsub]
  have hdist : collisionDist rnd A B = a - b := by
    unfold collisionDist; rw [hcd, hlen]
  refine ⟨hcd, hdist, ?_⟩
  unfold collisionNormal
  rw [hcd, hdist, jsDivisor_of_ne (by intro h; linarith)]
  have hba : a - b ≠ 0 := by intro h; linarith
  simp only [Vec3.smul, Vec3.mk.injEq]
  refine ⟨?_, by norm_num, by norm_num⟩
  field_simp

/-! ## Claim C6: zero collision radius -/

/-- Claim C6, amended part: a pair in which BOTH bodies have (defaulted)
collision radius `0` is never separated or impulsed — the resolver returns
both bodies unchanged, whatever the random draw. -/
theorem zeroRadius_pair_untouched (rnd : Vec3) (A B : Body)
    (hA : A.collisionRadius.getD 0 = 0) (hB : B.collisionRadius.getD 0 = 0) :
    resolvePair rnd A B = (A, B) := by
  apply resolvePair_of_no_overlap
  unfold minSeparation
  rw [hA, hB]
  simpa using collisionDist_nonneg rnd A B

/-- Witness for the amended C6 theorem at a concrete coincident pair. -/
theorem zeroRadius_pair_untouched_witness :
    (xBody 1 1 0 0 none).collisionRadius.getD 0 = 0 ∧
      (xBody 2 1 0 0 none).collisionRadius.getD 0 = 0 ∧
      resolvePair Vec3.zero (xBody 1 1 0 0 none) (xBody 2 1 0 0 none) =
        (xBody 1 1 0 0 none, xBody 2 1 0 0 none) :=
  ⟨rfl, rfl, zeroRadius_pair_untouched Vec3.zero _ _ rfl rfl⟩

/-- Claim C6, counterexample: a body with `collisionRadius = 0` that overlaps
a partner of radius `2` IS displaced by the resolver (the skip test uses the
pairwise radius sum, not the individual radius), contradicting the claim
that such a body is never separated. -/
theorem zeroRadius_body_moved_counterexample :
    (resolvePair Vec3.zero (xBody 1 1 0 0 none) (xBody 2 1 1 0 (some 2))).1.position ≠
      (xBody 1 1 0 0 none).position := by
  have hx := xaxis_collision_data Vec3.zero
    (show (xBody 1 1 0 0 none).position = ⟨0, 0, 0⟩ from rfl)
    (show (xBody 2 1 1 0 (some 2)).position = ⟨1, 0, 0⟩ from rfl)
    (by norm_num : (0:ℝ) < 1)
  have hmin : minSeparation (xBody 1 1 0 0 none) (xBody 2 1 1 0 (some 2)) = 2 := by
    simp [minSeparation, xBody]
  have hno : ¬ minSeparation (xBody 1 1 0 0 none) (xBody 2 1 1 0 (some 2)) ≤
      collisionDist Vec3.zero (xBody 1 1 0 0 none) (xBody 2 1 1 0 (some 2)) := by
    rw [hmin, hx.2.1]; norm_num
  have hvel : velAlongNormal Vec3.zero (xBody 1 1 0 0 none) (xBody 2 1 1 0 (some 2)) = 0 := by
    unfold velAlongNormal
    rw [hx.2.2]
    simp [xBody, Vec3.sub, Vec3.dot]
  have hres := resolvePair_of_overlap_separating hno (by rw [hvel]; norm_num)
  rw [hres]
  have hsep : separationVec Vec3.zero (xBody 1 1 0 0 none) (xBody 2 1 1 0 (some 2)) =
      ⟨0.5, 0, 0⟩ := by
    unfold separationVec
    rw [hx.2.2, hmin, hx.2.1]
    simp only [Vec3.smul, Vec3.mk.injEq]
    norm_num
  show (sepBodyA _ _ _).position ≠ _
  unfold sepBodyA
  rw [hsep]
  simp only [xBody, Vec3.addScaled]
  intro h
  rw [Vec3.ext_iff] at h
  have := h.1
  norm_num at this

/-! ## Claim C7: figure-eight preset literals and determinism -/

/-- Claim C7: every call of the scenario generator on the figure-eight preset
returns exactly the three unit-mass bodies at the Chenciner-Montgomery base
positions scaled by `FIGURE8_SCALE = 6` with the base velocities scaled by
`1/√6`, independently of the random oracle — hence bit-identical across
calls. -/
theorem figure8_preset_literal (rnd : ℕ → ℝ) :
    getInitialBodies rnd Scenario.figure8 =
      [{ id := 1, mass := 1,
         position := ⟨-0.97000436 * 6, 0, 0.24308753 * 6⟩,
         velocity := ⟨0.466203685 * (1 / Real.sqrt 6), 0, 0.43236573 * (1 / Real.sqrt 6)⟩,
         color := "#00f3ff", shape := "sphere", radius := none, collisionRadius := some 0.5 },
       { id := 2, mass := 1,
         position := ⟨0.97000436 * 6, 0, -0.24308753 * 6⟩,
         velocity := ⟨0.466203685 * (1 / Real.sqrt 6), 0, 0.43236573 * (1 / Real.sqrt 6)⟩,
         color := "#ff00aa", shape := "sphere", radius := none, collisionRadius := some 0.5 },
       { id := 3, mass := 1,
         position := ⟨0, 0, 0⟩,
         velocity := ⟨-0.93240737 * (1 / Real.sqrt 6), 0, -0.86473146 * (1 / Real.sqrt 6)⟩,
         color := "#ffd700", shape := "sphere", radius := none, collisionRadius := some 0.5 }] := by
  simp only [getInitialBodies, range_three, List.map, figure8Body,
    FIGURE8_BASE_POSITIONS, FIGURE8_BASE_VELOCITIES, FIGURE8_SCALE, FIGURE8_VELOCITY_SCALE,
    colorOf, COLORS, Vec3.smul, List.getD, List.get?]
  norm_num
  exact ⟨rfl, rfl⟩

/-! ## Claim C8: contact clamping of the force -/

theorem Vec3.length_pos_of_lengthSq_ne {v : Vec3} (h : v.lengthSq ≠ 0) : 0 < v.length :=
  Real.sqrt_pos.mpr (lt_of_le_of_ne (Vec3.lengthSq_nonneg v) (Ne.symm h))

theorem Vec3.normalize_length {v : Vec3} (h : v.length ≠ 0) : v.normalize.length = 1 := by
  unfold Vec3.normalize
  rw [Vec3.length_smul, jsDivisor_of_ne h]
  have hpos : 0 < v.length := lt_of_le_of_ne (Vec3.length_nonneg v) (Ne.symm h)
  rw [abs_of_pos (by positivity)]
  field_simp

/-- `accContrib` when the pair is nondegenerate and the clamp does not fire. -/
theorem accContrib_noclamp {g : ℝ} {rnd : Vec3} {A B : Body}
    (h : (B.position.sub A.position).lengthSq ≠ 0)
    (hc : ¬ clampCond true rnd A B) :
    accContrib g true rnd A B =
      (B.position.sub A.position).smul
        (g * B.mass / distCubedOf (B.position.sub A.position).lengthSq) := by
  unfold accContrib effDiff effDistSq
  rw [if_neg hc, if_neg hc, forceDiff_of_ne h]

/-- Modelled from the spec: the magnitude of the pair force contribution "at
contact distance", i.e. the softened-gravity formula evaluated at effective
distance `r_A + r_B`. -/
def contactContribMag (g mB minSep : ℝ) : ℝ :=
  minSep * (g * mB) / distCubedOf (minSep * minSep)

/-- Claim C8, amended: for a nondegenerate overlapping pair that the clamp
rescales (collisions enabled, `dist < r_A + r_B`, positive radius sum) and a
nonnegative `G * mass`, the acceleration contribution's magnitude EQUALS the
contact-distance value — hence never exceeds it.  (The further parenthetical
of the claim, global monotonicity in effective distance, is false; see the
counterexample.) -/
theorem clamped_contrib_eq_contact {g : ℝ} {rnd : Vec3} {A B : Body}
    (h0 : (B.position.sub A.position).lengthSq ≠ 0)
    (hclamp : clampCond true rnd A B)
    (hg : 0 ≤ g * B.mass) :
    (accContrib g true rnd A B).length = contactContribMag g B.mass (minSeparation A B) ∧
      (accContrib g true rnd A B).length ≤ contactContribMag g B.mass (minSeparation A B) := by
  have hmin : 0 < minSeparation A B := hclamp.2.2
  have hfd : forceDiff rnd A B = B.position.sub A.position := forceDiff_of_ne h0
  have hflen : (forceDiff rnd A B).length ≠ 0 := by
    rw [hfd]
    exact ne_of_gt (Vec3.length_pos_of_lengthSq_ne h0)
  have hden : 0 < distCubedOf (minSeparation A B * minSeparation A B) :=
    distCubedOf_pos (mul_self_nonneg _)
  have heq : (accContrib g true rnd A B).length =
      contactContribMag g B.mass (minSeparation A B) := by
    unfold accContrib effDiff effDistSq
    rw [if_pos hclamp, if_pos hclamp]
    rw [Vec3.length_smul, Vec3.length_smul, Vec3.normalize_length hflen]
    rw [abs_of_pos hmin, abs_of_nonneg (by positivity)]
    unfold contactContribMag
    ring
  exact ⟨heq, le_of_eq heq⟩

/-- Witness for the amended C8 theorem: a clamped pair at distance `0.5` with
radius sum `1`. -/
theorem clamped_contrib_eq_contact_witness :
    ((xBody 2 1 0.5 0 (some 0.5)).position.sub (xBody 1 1 0 0 (some 0.5)).position).lengthSq ≠ 0 ∧
      clampCond true Vec3.zero (xBody 1 1 0 0 (some 0.5)) (xBody 2 1 0.5 0 (some 0.5)) ∧
      (0 : ℝ) ≤ 3 * (xBody 2 1 0.5 0 (some 0.5)).mass ∧
      (accContrib 3 true Vec3.zero (xBody 1 1 0 0 (some 0.5)) (xBody 2 1 0.5 0 (some 0.5))).length =
        contactContribMag 3 (xBody 2 1 0.5 0 (some 0.5)).mass
          (minSeparation (xBody 1 1 0 0 (some 0.5)) (xBody 2 1 0.5 0 (some 0.5))) := by
  have hsub : (xBody 2 1 0.5 0 (some 0.5)).position.sub (xBody 1 1 0 0 (some 0.5)).position =
      ⟨0.5, 0, 0⟩ := by
    simp only [xBody, Vec3.sub]
    rw [Vec3.ext_iff]
    norm_num
  have hlsq : ((xBody 2 1 0.5 0 (some 0.5)).position.sub
      (xBody 1 1 0 0 (some 0.5)).position).lengthSq = 0.25 := by
    rw [hsub]
    simp only [Vec3.lengthSq]
    norm_num
  have h0 : ((xBody 2 1 0.5 0 (some 0.5)).position.sub
      (xBody 1 1 0 0 (some 0.5)).position).lengthSq ≠ 0 := by
    rw [hlsq]; norm_num
  have hclamp : clampCond true Vec3.zero (xBody 1 1 0 0 (some 0.5)) (xBody 2 1 0.5 0 (some 0.5)) := by
    refine ⟨rfl, ?_, by norm_num [minSeparation, xBody]⟩
    rw [forceDiff_of_ne h0, hlsq]
    rw [show (0.25 : ℝ) = 0.5 ^ 2 by norm_num, Real.sqrt_sq (by norm_num : (0:ℝ) ≤ 0.5)]
    norm_num [minSeparation, xBody]
  exact ⟨h0, hclamp, by norm_num [xBody],
    (clamped_contrib_eq_contact h0 hclamp (by norm_num [xBody])).1⟩

/-- Claim C8, counterexample to the monotonicity parenthetical: with `G = 3`,
unit masses and radius sum `1`, the pair contribution at effective distance
`1.2` has STRICTLY LARGER magnitude than the one at effective (= contact)
distance `1` — the softened force grows with distance below `√2`, so the
contribution magnitude is not monotonically non-increasing in effective
distance, and an unclamped pair can exceed the contact-distance value. -/
theorem contrib_not_monotone_counterexample :
    (accContrib 3 true Vec3.zero (xBody 1 1 0 0 (some 0.5)) (xBody 2 1 1 0 (some 0.5))).length <
      (accContrib 3 true Vec3.zero (xBody 1 1 0 0 (some 0.5)) (xBody 3 1 1.2 0 (some 0.5))).length := by
  have hsub1 : (xBody 2 1 1 0 (some 0.5)).position.sub (xBody 1 1 0 0 (some 0.5)).position =
      ⟨1, 0, 0⟩ := by
    simp only [xBody, Vec3.sub]; rw [Vec3.ext_iff]; norm_num
  have hsub2 : (xBody 3 1 1.2 0 (some 0.5)).position.sub (xBody 1 1 0 0 (some 0.5)).position =
      ⟨1.2, 0, 0⟩ := by
    simp only [xBody, Vec3.sub]; rw [Vec3.ext_iff]; norm_num
  have hlsq1 : ((xBody 2 1 1 0 (some 0.5)).position.sub
      (xBody 1 1 0 0 (some 0.5)).position).lengthSq = 1 := by
    rw [hsub1]; simp only [Vec3.lengthSq]; norm_num
  have hlsq2 : ((xBody 3 1 1.2 0 (some 0.5)).position.sub
      (xBody 1 1 0 0 (some 0.5)).position).lengthSq = 1.44 := by
    rw [hsub2]; simp only [Vec3.lengthSq]; norm_num
  have h01 : ((xBody 2 1 1 0 (some 0.5)).position.sub
      (xBody 1 1 0 0 (some 0.5)).position).lengthSq ≠ 0 := by rw [hlsq1]; norm_num
  have h02 : ((xBody 3 1 1.2 0 (some 0.5)).position.sub
      (xBody 1 1 0 0 (some 0.5)).position).lengthSq ≠ 0 := by rw [hlsq2]; norm_num
  have hc1 : ¬ clampCond true Vec3.zero (xBody 1 1 0 0 (some 0.5)) (xBody 2 1 1 0 (some 0.5)) := by
    intro h
    have := h.2.1
    rw [forceDiff_of_ne h01, hlsq1, Real.sqrt_one] at this
    have hm : minSeparation (xBody 1 1 0 0 (some 0.5)) (xBody 2 1 1 0 (some 0.5)) = 1 := by
      norm_num [minSeparation, xBody]
    rw [hm] at this
    exact lt_irrefl _ this
  have hc2 : ¬ clampCond true Vec3.zero (xBody 1 1 0 0 (some 0.5)) (xBody 3 1 1.2 0 (some 0.5)) := by
    intro h
    have := h.2.1
    rw [forceDiff_of_ne h02, hlsq2] at this
    rw [show (1.44 : ℝ) = 1.2 ^ 2 by norm_num, Real.sqrt_sq (by norm_num : (0:ℝ) ≤ 1.2)] at this
    have hm : minSeparation (xBody 1 1 0 0 (some 0.5)) (xBody 3 1 1.2 0 (some 0.5)) = 1 := by
      norm_num [minSeparation, xBody]
    rw [hm] at this
    norm_num at this
  rw [accContrib_noclamp h01 hc1, accContrib_noclamp h02 hc2, hlsq1, hlsq2, hsub1, hsub2]
  rw [Vec3.length_smul, Vec3.length_smul, Vec3.length_xaxis, Vec3.length_xaxis]
  have hp : (0 : ℝ) < distCubedOf 1 := distCubedOf_pos (by norm_num)
  have hq : (0 : ℝ) < distCubedOf 1.44 := distCubedOf_pos (by norm_num)
  have hmass1 : (xBody 2 1 1 0 (some 0.5)).mass = 1 := rfl
  have hmass2 : (xBody 3 1 1.2 0 (some 0.5)).mass = 1 := rfl
  rw [hmass1, hmass2]
  have hpv : distCubedOf 1 = (5 : ℝ) ^ (1.5 : ℝ) := by
    unfold distCubedOf softening; norm_num
  have hqv : distCubedOf 1.44 = (5.44 : ℝ) ^ (1.5 : ℝ) := by
    unfold distCubedOf softening; norm_num
  rw [hpv, hqv]
  have hp5 : (0 : ℝ) < (5 : ℝ) ^ (1.5 : ℝ) := rpow15_pos (by norm_num)
  have hq5 : (0 : ℝ) < (5.44 : ℝ) ^ (1.5 : ℝ) := rpow15_pos (by norm_num)
  have hpsq : ((5 : ℝ) ^ (1.5 : ℝ)) ^ 2 = 125 := by
    rw [rpow15_sq (by norm_num : (0:ℝ) < 5)]; norm_num
  have hqsq : ((5.44 : ℝ) ^ (1.5 : ℝ)) ^ 2 = 160.989184 := by
    rw [rpow15_sq (by norm_num : (0:ℝ) < 5.44)]; norm_num
  rw [abs_one, abs_of_pos (show (0:ℝ) < 1.2 by norm_num),
    abs_of_pos (show (0:ℝ) < 3 * 1 / (5 : ℝ) ^ (1.5 : ℝ) by positivity),
    abs_of_pos (show (0:ℝ) < 3 * 1 / (5.44 : ℝ) ^ (1.5 : ℝ) by positivity)]
  have lhs_eq : (1 : ℝ) * (3 * 1 / (5 : ℝ) ^ (1.5 : ℝ)) = 3 / (5 : ℝ) ^ (1.5 : ℝ) := by
    ring
  have rhs_eq : (1.2 : ℝ) * (3 * 1 / (5.44 : ℝ) ^ (1.5 : ℝ)) =
      3.6 / (5.44 : ℝ) ^ (1.5 : ℝ) := by
    ring
  rw [lhs_eq, rhs_eq, div_lt_div_iff hp5 hq5]
  have hq_nonneg : (0 : ℝ) ≤ 3.6 * (5 : ℝ) ^ (1.5 : ℝ) := by positivity
  refine lt_of_pow_lt_pow_left 2 hq_nonneg ?_
  have e1 : ((3 : ℝ) * ((5.44 : ℝ) ^ (1.5 : ℝ))) ^ 2 = 9 * (((5.44 : ℝ) ^ (1.5 : ℝ)) ^ 2) := by ring
  have e2 : ((3.6 : ℝ) * ((5 : ℝ) ^ (1.5 : ℝ))) ^ 2 = 12.96 * (((5 : ℝ) ^ (1.5 : ℝ)) ^ 2) := by
    ring
  rw [e1, e2, hpsq, hqsq]
  norm_num

/-- A trivial random source (never consulted in the nondegenerate scenarios
below). -/
def zeroRnd : ℕ → ℕ → Vec3 := fun _ _ => Vec3.zero

/-- A trivial per-step random source. -/
def zeroStepRnd : StepRnd := ⟨zeroRnd, zeroRnd, zeroRnd⟩

/-! ## Claim C3: momentum conservation for the two-body preset -/

theorem frameDt_zero : frameDt 0 = 0 := by
  unfold frameDt SUB_STEPS
  norm_num

theorem kickDriftBody_dt_zero (m : ℝ → Option Vec3) (b : Body) : kickDriftBody 0 m b = b := by
  cases b
  unfold kickDriftBody
  simp [Vec3.addScaled]

theorem secondKickBody_dt_zero (m : ℝ → Option Vec3) (b : Body) : secondKickBody 0 m b = b := by
  cases b
  unfold secondKickBody
  simp [Vec3.addScaled]

theorem resolveCollisions_disabled (rnd : ℕ → ℕ → Vec3) (bodies : List Body) :
    resolveCollisions false rnd bodies = bodies := by
  unfold resolveCollisions
  rw [if_pos rfl]

/-- With `dt = 0` the half-kicks and the drift are no-ops, so a sub-step only
runs the resolver on the unchanged bodies. -/
theorem subStep_bodies_dt_zero (g : ℝ) (ce : Bool) (r : StepRnd) (st : SimState) :
    (subStep g ce r 0 st).bodies = resolveCollisions ce r.collide st.bodies := by
  unfold subStep midStep collisionPhase secondKickPhase recomputePhase kickDriftPhase
    firstKickAccPhase ensurePhase
  have h1 : ∀ m : ℝ → Option Vec3, ∀ bs : List Body, bs.map (kickDriftBody 0 m) = bs := by
    intro m bs
    rw [show kickDriftBody 0 m = id from funext (kickDriftBody_dt_zero m), List.map_id]
  have h2 : ∀ m : ℝ → Option Vec3, ∀ bs : List Body, bs.map (secondKickBody 0 m) = bs := by
    intro m bs
    rw [show secondKickBody 0 m = id from funext (secondKickBody_dt_zero m), List.map_id]
  simp only [h1, h2]

/-- Sub-steps with `dt = 0` and collisions disabled leave the bodies exactly
unchanged, for any number of iterations. -/
theorem runSteps_bodies_dt_zero_nocollide (g : ℝ) (rs : ℕ → StepRnd) (n : ℕ) (st : SimState) :
    (runSteps g false rs 0 n st).bodies = st.bodies := by
  induction n with
  | zero => rfl
  | succ k ih =>
      show (subStep g false (rs k) 0 (runSteps g false rs 0 k st)).bodies = st.bodies
      rw [subStep_bodies_dt_zero, resolveCollisions_disabled, ih]


theorem pos_ne_lengthSq {A B : Body} (h : A.position ≠ B.position) :
    (B.position.sub A.position).lengthSq ≠ 0 := by
  intro h0
  exact h (Vec3.sub_eq_zero_iff.mp (Vec3.lengthSq_eq_zero_iff.mp h0)).symm

/-- The oracle-free closed form of the softened-gravity acceleration of one
body of a nondegenerate pair on the other (collisions disabled): what
`calcAcceleration` computes at either index of a distinct-position
two-body list. -/
def pairAcc (g : ℝ) (A B : Body) : Vec3 :=
  (B.position.sub A.position).smul
    (g * B.mass / distCubedOf (B.position.sub A.position).lengthSq)

theorem calcAcc_pair0 {g : ℝ} {rnd : ℕ → Vec3} {A B : Body} (hpos : A.position ≠ B.position) :
    calcAcceleration g false [A, B] rnd 0 = pairAcc g A B := by
  rw [calcAcceleration_pair_left, accContrib_free (pos_ne_lengthSq hpos)]
  rfl

theorem calcAcc_pair1 {g : ℝ} {rnd : ℕ → Vec3} {A B : Body} (hpos : A.position ≠ B.position) :
    calcAcceleration g false [A, B] rnd 1 = pairAcc g B A := by
  rw [calcAcceleration_pair_right, accContrib_free (pos_ne_lengthSq (Ne.symm hpos))]
  rfl

/-- Newton's third law in closed form: the mass-weighted pair accelerations
cancel. -/
theorem pairAcc_cancel {g : ℝ} {A B : Body} (h : A.position ≠ B.position) :
    ((pairAcc g A B).smul A.mass).add ((pairAcc g B A).smul B.mass) = Vec3.zero := by
  have h1 := accContrib_antisym (g := g) Vec3.zero Vec3.zero h
  rw [accContrib_free (pos_ne_lengthSq h),
    accContrib_free (pos_ne_lengthSq (Ne.symm h))] at h1
  exact h1

theorem momentum_pair (A B : Body) :
    momentum [A, B] = (A.velocity.smul A.mass).add (B.velocity.smul B.mass) := by
  unfold momentum
  simp only [List.foldl]
  rw [Vec3.zero_add]

/-- A simultaneous half-kick by mass-cancelling accelerations preserves the
pair's momentum. -/
theorem momentum_kick {A B A' B' : Body} {FA FB : Vec3} (s : ℝ)
    (hA : A'.velocity = A.velocity.addScaled FA s)
    (hB : B'.velocity = B.velocity.addScaled FB s)
    (hmA : A'.mass = A.mass) (hmB : B'.mass = B.mass)
    (hcancel : (FA.smul A.mass).add (FB.smul B.mass) = Vec3.zero) :
    momentum [A', B'] = momentum [A, B] := by
  rw [momentum_pair, momentum_pair, hA, hB, hmA, hmB]
  rw [Vec3.ext_iff] at hcancel
  simp only [Vec3.smul, Vec3.add, Vec3.zero] at hcancel
  obtain ⟨hx, hy, hz⟩ := hcancel
  rw [Vec3.ext_iff]
  simp only [Vec3.smul, Vec3.add, Vec3.addScaled]
  refine ⟨?_, ?_, ?_⟩
  · linear_combination s * hx
  · linear_combination s * hy
  · linear_combination s * hz

/-- The cache consistency invariant for a two-body state: any nonzero cached
acceleration equals the closed-form fresh value at the CURRENT positions. -/
def CachedOK (g : ℝ) (A B : Body) (m : ℝ → Option Vec3) : Prop :=
  (∀ v, m A.id = some v → v.lengthSq ≠ 0 → v = pairAcc g A B) ∧
  (∀ v, m B.id = some v → v.lengthSq ≠ 0 → v = pairAcc g B A)

/-- The two bodies of a (two-body) state sit at distinct positions. -/
def posDistinctAt (st : SimState) : Prop :=
  (st.bodies.getD 0 default).position ≠ (st.bodies.getD 1 default).position

/-- The ensure pass only inserts zero vectors, so cache consistency is
preserved and the two entries become the old entries defaulted to zero. -/
theorem ensureMap_pair_lookup {A B : Body} (m : ℝ → Option Vec3) (hAB : B.id ≠ A.id) :
    ensureMap [A, B] m A.id = some ((m A.id).getD Vec3.zero) ∧
      ensureMap [A, B] m B.id = some ((m B.id).getD Vec3.zero) := by
  unfold ensureMap
  simp only [List.foldl]
  constructor
  · cases h1 : m A.id <;> cases h2 : m B.id <;>
      simp [h1, h2, mapSet, hAB, hAB.symm]
  · cases h1 : m A.id <;> cases h2 : m B.id <;>
      simp [h1, h2, mapSet, hAB, hAB.symm]

theorem ensureMap_cache {g : ℝ} {A B : Body} {m : ℝ → Option Vec3} (hid : A.id ≠ B.id)
    (hc : CachedOK g A B m) : CachedOK g A B (ensureMap [A, B] m) := by
  have hl := ensureMap_pair_lookup m (Ne.symm hid)
  constructor
  · intro v hv hlv
    rw [hl.1] at hv
    cases h1 : m A.id with
    | none =>
        rw [h1] at hv
        injection hv with hv'
        exfalso
        apply hlv
        rw [← hv']
        simp [Vec3.lengthSq, Vec3.zero]
    | some u =>
        rw [h1] at hv
        injection hv with hv'
        rw [← hv']
        exact hc.1 u h1 (by rw [← hv'] at hlv; exact hlv)
  · intro v hv hlv
    rw [hl.2] at hv
    cases h1 : m B.id with
    | none =>
        rw [h1] at hv
        injection hv with hv'
        exfalso
        apply hlv
        rw [← hv']
        simp [Vec3.lengthSq, Vec3.zero]
    | some u =>
        rw [h1] at hv
        injection hv with hv'
        rw [← hv']
        exact hc.2 u h1 (by rw [← hv'] at hlv; exact hlv)

/-- With a consistent cache and distinct positions, the acceleration chosen
for body 0's first half-kick is the fresh closed-form value — whether the
guard recomputes it or reuses the (then equal) cached one. -/
theorem firstKickAcc_pair0 (g : ℝ) (rk : ℕ → Vec3) {A B : Body} {m : ℝ → Option Vec3}
    (hpos : A.position ≠ B.position)
    (hcA : ∀ v, m A.id = some v → v.lengthSq ≠ 0 → v = pairAcc g A B) :
    firstKickAcc g false rk [A, B] m 0 = pairAcc g A B := by
  unfold firstKickAcc
  have hgd : ([A, B].getD 0 default) = A := rfl
  rw [hgd]
  by_cases h0 : (mapLookup m A.id).lengthSq = 0
  · rw [if_pos h0]
    exact calcAcc_pair0 hpos
  · rw [if_neg h0]
    cases h1 : m A.id with
    | none =>
        exfalso
        apply h0
        unfold mapLookup
        rw [h1]
        simp [Vec3.lengthSq, Vec3.zero]
    | some u =>
        have hu : mapLookup m A.id = u := by unfold mapLookup; rw [h1]; rfl
        rw [hu] at h0 ⊢
        exact hcA u h1 h0

/-- Same for body 1. -/
theorem firstKickAcc_pair1 (g : ℝ) (rk : ℕ → Vec3) {A B : Body} {m : ℝ → Option Vec3}
    (hpos : A.position ≠ B.position)
    (hcB : ∀ v, m B.id = some v → v.lengthSq ≠ 0 → v = pairAcc g B A) :
    firstKickAcc g false rk [A, B] m 1 = pairAcc g B A := by
  unfold firstKickAcc
  have hgd : ([A, B].getD 1 default) = B := rfl
  rw [hgd]
  by_cases h0 : (mapLookup m B.id).lengthSq = 0
  · rw [if_pos h0]
    exact calcAcc_pair1 hpos
  · rw [if_neg h0]
    cases h1 : m B.id with
    | none =>
        exfalso
        apply h0
        unfold mapLookup
        rw [h1]
        simp [Vec3.lengthSq, Vec3.zero]
    | some u =>
        have hu : mapLookup m B.id = u := by unfold mapLookup; rw [h1]; rfl
        rw [hu] at h0 ⊢
        exact hcB u h1 h0

/-- After the first-kick pass both entries hold exactly the fresh pair
accelerations of the current positions. -/
theorem firstKickMap_pair_lookup (g : ℝ) (rk : ℕ → ℕ → Vec3) {A B : Body}
    (m : ℝ → Option Vec3) (hid : A.id ≠ B.id) (hpos : A.position ≠ B.position)
    (hc : CachedOK g A B m) :
    firstKickMap g false rk [A, B] m A.id = some (pairAcc g A B) ∧
      firstKickMap g false rk [A, B] m B.id = some (pairAcc g B A) := by
  have hlen : [A, B].length = 2 := rfl
  unfold firstKickMap
  rw [hlen, range_two]
  simp only [List.foldl]
  have hgd0 : ([A, B].getD 0 default) = A := rfl
  have hgd1 : ([A, B].getD 1 default) = B := rfl
  rw [hgd0, hgd1]
  have hu0 : firstKickAcc g false (rk 0) [A, B] m 0 = pairAcc g A B :=
    firstKickAcc_pair0 g (rk 0) hpos hc.1
  have hcB1 : ∀ v, mapSet m A.id (firstKickAcc g false (rk 0) [A, B] m 0) B.id = some v →
      v.lengthSq ≠ 0 → v = pairAcc g B A := by
    intro v hv hl
    rw [show mapSet m A.id (firstKickAcc g false (rk 0) [A, B] m 0) B.id = m B.id from by
      unfold mapSet; rw [if_neg (Ne.symm hid)]] at hv
    exact hc.2 v hv hl
  have hu1 : firstKickAcc g false (rk 1) [A, B]
      (mapSet m A.id (firstKickAcc g false (rk 0) [A, B] m 0)) 1 = pairAcc g B A :=
    firstKickAcc_pair1 g (rk 1) hpos hcB1
  constructor
  · rw [show (mapSet (mapSet m A.id (firstKickAcc g false (rk 0) [A, B] m 0)) B.id
        (firstKickAcc g false (rk 1) [A, B]
          (mapSet m A.id (firstKickAcc g false (rk 0) [A, B] m 0)) 1)) A.id =
        mapSet m A.id (firstKickAcc g false (rk 0) [A, B] m 0) A.id from by
      unfold mapSet; rw [if_neg hid]]
    rw [show mapSet m A.id (firstKickAcc g false (rk 0) [A, B] m 0) A.id =
        some (firstKickAcc g false (rk 0) [A, B] m 0) from by
      unfold mapSet; rw [if_pos rfl]]
    rw [hu0]
  · rw [show (mapSet (mapSet m A.id (firstKickAcc g false (rk 0) [A, B] m 0)) B.id
        (firstKickAcc g false (rk 1) [A, B]
          (mapSet m A.id (firstKickAcc g false (rk 0) [A, B] m 0)) 1)) B.id =
        some (firstKickAcc g false (rk 1) [A, B]
          (mapSet m A.id (firstKickAcc g false (rk 0) [A, B] m 0)) 1) from by
      unfold mapSet; rw [if_pos rfl]]
    rw [hu1]

/-- After the recompute pass both entries hold exactly the fresh pair
accelerations of the (post-drift) positions. -/
theorem recomputeMap_pair_lookup (g : ℝ) (rr : ℕ → ℕ → Vec3) {A B : Body}
    (m : ℝ → Option Vec3) (hid : A.id ≠ B.id) (hpos : A.position ≠ B.position) :
    recomputeMap g false rr [A, B] m A.id = some (pairAcc g A B) ∧
      recomputeMap g false rr [A, B] m B.id = some (pairAcc g B A) := by
  have hlen : [A, B].length = 2 := rfl
  unfold recomputeMap
  rw [hlen, range_two]
  simp only [List.foldl]
  have hgd0 : ([A, B].getD 0 default) = A := rfl
  have hgd1 : ([A, B].getD 1 default) = B := rfl
  rw [hgd0, hgd1]
  constructor
  · rw [show (mapSet (mapSet m A.id (calcAcceleration g false [A, B] (rr 0) 0)) B.id
        (calcAcceleration g false [A, B] (rr 1) 1)) A.id =
        mapSet m A.id (calcAcceleration g false [A, B] (rr 0) 0) A.id from by
      unfold mapSet; rw [if_neg hid]]
    rw [show mapSet m A.id (calcAcceleration g false [A, B] (rr 0) 0) A.id =
        some (calcAcceleration g false [A, B] (rr 0) 0) from by
      unfold mapSet; rw [if_pos rfl]]
    rw [calcAcc_pair0 hpos]
  · rw [show (mapSet (mapSet m A.id (calcAcceleration g false [A, B] (rr 0) 0)) B.id
        (calcAcceleration g false [A, B] (rr 1) 1)) B.id =
        some (calcAcceleration g false [A, B] (rr 1) 1) from by
      unfold mapSet; rw [if_pos rfl]]
    rw [calcAcc_pair1 hpos]

/-- One full sub-step of a nondegenerate two-body state with collisions
disabled: it keeps the two-body shape and ids, restores cache consistency
and preserves the total momentum (each half-kick uses mass-cancelling
accelerations, the drift does not touch velocities, the resolver is off). -/
theorem subStep_pair_step (g dt : ℝ) (r : StepRnd) (m : ℝ → Option Vec3) (A B : Body)
    (hid : A.id ≠ B.id) (hpos : A.position ≠ B.position) (hc : CachedOK g A B m)
    (hpos' : posDistinctAt (midStep g false r dt ⟨[A, B], m⟩)) :
    (∃ A2 B2, (subStep g false r dt ⟨[A, B], m⟩).bodies = [A2, B2] ∧ A2.id = A.id ∧
        B2.id = B.id ∧ CachedOK g A2 B2 (subStep g false r dt ⟨[A, B], m⟩).accMap) ∧
      momentum (subStep g false r dt ⟨[A, B], m⟩).bodies = momentum [A, B] := by
  have hc0 : CachedOK g A B (ensureMap [A, B] m) := ensureMap_cache hid hc
  have hM := firstKickMap_pair_lookup g r.kick (ensureMap [A, B] m) hid hpos hc0
  set M := firstKickMap g false r.kick [A, B] (ensureMap [A, B] m) with hMdef
  set A1 := kickDriftBody dt M A with hA1
  set B1 := kickDriftBody dt M B with hB1
  have hA1v : A1.velocity = A.velocity.addScaled (pairAcc g A B) (0.5 * dt) := by
    rw [hA1]
    unfold kickDriftBody
    show A.velocity.addScaled (mapLookup M A.id) (0.5 * dt) = _
    unfold mapLookup
    rw [hM.1]
    rfl
  have hB1v : B1.velocity = B.velocity.addScaled (pairAcc g B A) (0.5 * dt) := by
    rw [hB1]
    unfold kickDriftBody
    show B.velocity.addScaled (mapLookup M B.id) (0.5 * dt) = _
    unfold mapLookup
    rw [hM.2]
    rfl
  have hpos1 : A1.position ≠ B1.position := hpos'
  have hid1A : A1.id = A.id := rfl
  have hid1B : B1.id = B.id := rfl
  have hid1 : A1.id ≠ B1.id := by rw [hid1A, hid1B]; exact hid
  set m2 := recomputeMap g false r.recompute [A1, B1] M with hm2
  have hR := recomputeMap_pair_lookup g r.recompute (A := A1) (B := B1) M hid1 hpos1
  rw [← hm2] at hR
  set A2 := secondKickBody dt m2 A1 with hA2
  set B2 := secondKickBody dt m2 B1 with hB2
  have hA2v : A2.velocity = A1.velocity.addScaled (pairAcc g A1 B1) (0.5 * dt) := by
    rw [hA2]
    unfold secondKickBody
    show A1.velocity.addScaled (mapLookup m2 A1.id) (0.5 * dt) = _
    unfold mapLookup
    rw [hR.1]
    rfl
  have hB2v : B2.velocity = B1.velocity.addScaled (pairAcc g B1 A1) (0.5 * dt) := by
    rw [hB2]
    unfold secondKickBody
    show B1.velocity.addScaled (mapLookup m2 B1.id) (0.5 * dt) = _
    unfold mapLookup
    rw [hR.2]
    rfl
  have hsub : subStep g false r dt ⟨[A, B], m⟩ = ⟨[A2, B2], m2⟩ := rfl
  rw [hsub]
  constructor
  · refine ⟨A2, B2, rfl, rfl, rfl, ?_, ?_⟩
    · intro v hv hl
      show v = pairAcc g A2 B2
      have hv2 : m2 A2.id = some v := hv
      have heq : m2 A2.id = some (pairAcc g A1 B1) := hR.1
      rw [heq] at hv2
      injection hv2 with hv'
      exact hv'.symm
    · intro v hv hl
      show v = pairAcc g B2 A2
      have hv2 : m2 B2.id = some v := hv
      have heq : m2 B2.id = some (pairAcc g B1 A1) := hR.2
      rw [heq] at hv2
      injection hv2 with hv'
      exact hv'.symm
  · show momentum [A2, B2] = momentum [A, B]
    have step2 : momentum [A2, B2] = momentum [A1, B1] :=
      momentum_kick (0.5 * dt) hA2v hB2v rfl rfl (pairAcc_cancel hpos1)
    have step1 : momentum [A1, B1] = momentum [A, B] :=
      momentum_kick (0.5 * dt) hA1v hB1v rfl rfl (pairAcc_cancel hpos)
    rw [step2, step1]

/-- The two-body preset body 1 as the host initializes it (mass 20,
`collisionRadius` defaulted to 0.5, display radius to 0.8). -/
def twoBodyA : Body :=
  ⟨1, 20, ⟨15, 0, 0⟩, ⟨0, 0.8, 0⟩, colorOf "cyan", "sphere", some 0.8, some 0.5⟩

/-- The two-body preset body 2 as the host initializes it. -/
def twoBodyB : Body :=
  ⟨2, 20, ⟨-15, 0, 0⟩, ⟨0, -0.8, 0⟩, colorOf "magenta", "sphere", some 0.8, some 0.5⟩

/-- The freshly initialized two-body scenario state: the preset run through
the host initialization (unperturbed) and the empty acceleration map the
loop starts with. -/
def twoBodyState : SimState :=
  ⟨initializeBodies false (fun _ => 0) 0 (getInitialBodies (fun _ => 0) Scenario.twobody),
   fun _ => none⟩

theorem twoBodyState_bodies : twoBodyState.bodies = [twoBodyA, twoBodyB] := by
  show initializeBodies false (fun _ => 0) 0 (getInitialBodies (fun _ => 0) Scenario.twobody) = _
  simp only [getInitialBodies, initializeBodies, initBody, jsOr, twoBodyA, twoBodyB]
  norm_num

/-- Strengthened induction for claim C3: along any trajectory whose two
bodies stay at distinct positions at both force evaluations of every
sub-step, the state keeps the two-body shape, the cache stays consistent
and the momentum equals its initial value. -/
theorem twoBody_aux (g dt : ℝ) (rs : ℕ → StepRnd) :
    ∀ n : ℕ,
      (∀ k, k < n → posDistinctAt (runSteps g false rs dt k twoBodyState) ∧
          posDistinctAt (midStep g false (rs k) dt (runSteps g false rs dt k twoBodyState))) →
      (∃ A B, (runSteps g false rs dt n twoBodyState).bodies = [A, B] ∧ A.id = 1 ∧ B.id = 2 ∧
          CachedOK g A B (runSteps g false rs dt n twoBodyState).accMap) ∧
        momentum (runSteps g false rs dt n twoBodyState).bodies =
          momentum twoBodyState.bodies := by
  intro n
  induction n with
  | zero =>
      intro _
      refine ⟨⟨twoBodyA, twoBodyB, twoBodyState_bodies, rfl, rfl, ?_, ?_⟩, rfl⟩
      · intro v hv hl
        exact Option.noConfusion hv
      · intro v hv hl
        exact Option.noConfusion hv
  | succ k ih =>
      intro H
      have Hk := H k (Nat.lt_succ_self k)
      obtain ⟨⟨A, B, hb, hidA, hidB, hc⟩, hmom⟩ :=
        ih (fun j hj => H j (lt_trans hj (Nat.lt_succ_self k)))
      have hstruct : runSteps g false rs dt k twoBodyState =
          ⟨[A, B], (runSteps g false rs dt k twoBodyState).accMap⟩ := by
        rw [← hb]
      have hpos : A.position ≠ B.position := by
        have h1 := Hk.1
        unfold posDistinctAt at h1
        rw [hb] at h1
        exact h1
      have hid : A.id ≠ B.id := by
        rw [hidA, hidB]
        norm_num
      have hpos' : posDistinctAt (midStep g false (rs k) dt
          ⟨[A, B], (runSteps g false rs dt k twoBodyState).accMap⟩) := by
        rw [← hstruct]
        exact Hk.2
      have key := subStep_pair_step g dt (rs k)
        (runSteps g false rs dt k twoBodyState).accMap A B hid hpos hc hpos'
      have hrun : runSteps g false rs dt (k + 1) twoBodyState =
          subStep g false (rs k) dt
            ⟨[A, B], (runSteps g false rs dt k twoBodyState).accMap⟩ :=
        congrArg (subStep g false (rs k) dt) hstruct
      obtain ⟨⟨A2, B2, hb2, hidA2, hidB2, hc2⟩, hmom2⟩ := key
      rw [hb] at hmom
      refine ⟨⟨A2, B2, ?_, ?_, ?_, ?_⟩, ?_⟩
      · rw [hrun]; exact hb2
      · rw [hidA2, hidA]
      · rw [hidB2, hidB]
      · rw [hrun]; exact hc2
      · rw [hrun, hmom2, hmom]

/-- Claim C3: for the (host-initialized) two-body preset with collisions
disabled and any fixed `G` and time scale, the total momentum after any
number of sub-steps (hence after any number of integrator invocations, which
are `SUB_STEPS`-blocks of sub-steps) equals its initial value exactly, in
exact real arithmetic, provided the two bodies are at distinct positions at
each of the two force evaluations of every sub-step — the pairwise softened
gravity is equal-and-opposite, and the cached-acceleration reuse path
coincides with the fresh value along such a trajectory. -/
theorem twoBody_momentum_conserved (g ts : ℝ) (rs : ℕ → StepRnd) (n : ℕ)
    (H : ∀ k, k < n →
        posDistinctAt (runSteps g false rs (frameDt ts) k twoBodyState) ∧
        posDistinctAt (midStep g false (rs k) (frameDt ts)
          (runSteps g false rs (frameDt ts) k twoBodyState))) :
    momentum (runSteps g false rs (frameDt ts) n twoBodyState).bodies =
      momentum twoBodyState.bodies :=
  (twoBody_aux g (frameDt ts) rs n H).2

/-- With `dt = 0` the pre-collision phases leave the bodies unchanged. -/
theorem midStep_bodies_dt_zero (g : ℝ) (ce : Bool) (r : StepRnd) (st : SimState) :
    (midStep g ce r 0 st).bodies = st.bodies := by
  unfold midStep kickDriftPhase firstKickAccPhase ensurePhase
  show st.bodies.map (kickDriftBody 0 _) = st.bodies
  rw [show kickDriftBody 0 (firstKickMap g ce r.kick st.bodies (ensureMap st.bodies st.accMap)) =
    id from funext (kickDriftBody_dt_zero _), List.map_id]

/-- Witness for the C3 theorem: one full frame (8 sub-steps) at
`timeScale = 0`, where the frozen trajectory keeps the preset's distinct
positions. -/
theorem twoBody_momentum_conserved_witness :
    momentum (runSteps 3 false (fun _ => zeroStepRnd) (frameDt 0) SUB_STEPS
        twoBodyState).bodies =
      momentum twoBodyState.bodies := by
  have hdistinct : twoBodyA.position ≠ twoBodyB.position := by
    intro h
    rw [show twoBodyA.position = (⟨15, 0, 0⟩ : Vec3) from rfl,
      show twoBodyB.position = (⟨-15, 0, 0⟩ : Vec3) from rfl, Vec3.ext_iff] at h
    have := h.1
    norm_num at this
  have hH : ∀ k, k < SUB_STEPS →
      posDistinctAt (runSteps 3 false (fun _ => zeroStepRnd) (frameDt 0) k twoBodyState) ∧
      posDistinctAt (midStep 3 false zeroStepRnd (frameDt 0)
        (runSteps 3 false (fun _ => zeroStepRnd) (frameDt 0) k twoBodyState)) := by
    intro k _
    have hbod : (runSteps 3 false (fun _ => zeroStepRnd) (frameDt 0) k twoBodyState).bodies =
        [twoBodyA, twoBodyB] := by
      rw [frameDt_zero, runSteps_bodies_dt_zero_nocollide, twoBodyState_bodies]
    constructor
    · unfold posDistinctAt
      rw [hbod]
      exact hdistinct
    · unfold posDistinctAt
      rw [frameDt_zero, midStep_bodies_dt_zero]
      rw [show (runSteps 3 false (fun _ => zeroStepRnd) 0 k twoBodyState).bodies =
        [twoBodyA, twoBodyB] from by rw [runSteps_bodies_dt_zero_nocollide, twoBodyState_bodies]]
      exact hdistinct
  exact twoBody_momentum_conserved 3 0 (fun _ => zeroStepRnd) SUB_STEPS hH

/-! ## Claim C10: bodies entering the simulation -/

theorem jsOr_none (x : ℝ) : jsOr none x = x := rfl

theorem jsOr_half : jsOr (some 0.5) 0.5 = 0.5 := by
  unfold jsOr
  norm_num

theorem mem_initializeBodies {p : Bool} {r : ℕ → ℝ} {b : Body} :
    ∀ {i : ℕ} {ds : List Body}, b ∈ initializeBodies p r i ds →
      ∃ j d, d ∈ ds ∧ b = initBody p r j d := by
  intro i ds
  induction ds generalizing i with
  | nil => intro h; cases h
  | cons d ds ih =>
      intro h
      rw [initializeBodies] at h
      rcases List.mem_cons.mp h with h1 | h2
      · exact ⟨i, d, List.mem_cons_self d ds, h1⟩
      · obtain ⟨j, d', hd', hb⟩ := ih h2
        exact ⟨j, d', List.mem_cons_of_mem _ hd', hb⟩

/-- Every preset body has strictly positive mass, given the `Math.random`
contract `0 ≤ r`. -/
theorem getInitialBodies_mass_pos {rnd : ℕ → ℝ} (hr : ∀ n, 0 ≤ rnd n) (sc : Scenario) :
    ∀ b ∈ getInitialBodies rnd sc, 0 < b.mass := by
  intro b hb
  cases sc with
  | twobody =>
      simp only [getInitialBodies, List.mem_cons, List.not_mem_nil, or_false] at hb
      rcases hb with rfl | rfl <;> norm_num
  | chaotic =>
      simp only [getInitialBodies, List.mem_cons, List.not_mem_nil, or_false] at hb
      rcases hb with rfl | rfl | rfl <;>
        · show 0 < 10 + rnd _ * 5
          have := hr (7 * 0)
          have := hr (7 * 1)
          have := hr (7 * 2)
          nlinarith [hr (7 * 0), hr (7 * 1), hr (7 * 2)]
  | ternary =>
      simp only [getInitialBodies, List.mem_cons, List.not_mem_nil, or_false] at hb
      rcases hb with rfl | rfl | rfl <;> norm_num
  | galaxy =>
      simp only [getInitialBodies, List.mem_cons, List.mem_map] at hb
      rcases hb with rfl | ⟨i, _, rfl⟩
      · show (0 : ℝ) < 500
        norm_num
      · show 0 < 0.1 + rnd (6 * i + 2) * 0.5
        nlinarith [hr (6 * i + 2)]
  | figure8 =>
      simp only [getInitialBodies, List.mem_map] at hb
      obtain ⟨i, _, rfl⟩ := hb
      show (0 : ℝ) < 1
      norm_num

/-- Every preset body's `collisionRadius` is either absent or the default
`0.5` (only the figure-eight preset sets it). -/
theorem getInitialBodies_cr {rnd : ℕ → ℝ} (sc : Scenario) :
    ∀ b ∈ getInitialBodies rnd sc,
      b.collisionRadius = none ∨ b.collisionRadius = some 0.5 := by
  intro b hb
  cases sc with
  | twobody =>
      simp only [getInitialBodies, List.mem_cons, List.not_mem_nil, or_false] at hb
      rcases hb with rfl | rfl <;> exact Or.inl rfl
  | chaotic =>
      simp only [getInitialBodies, List.mem_cons, List.not_mem_nil, or_false] at hb
      rcases hb with rfl | rfl | rfl <;> exact Or.inl rfl
  | ternary =>
      simp only [getInitialBodies, List.mem_cons, List.not_mem_nil, or_false] at hb
      rcases hb with rfl | rfl | rfl <;> exact Or.inl rfl
  | galaxy =>
      simp only [getInitialBodies, List.mem_cons, List.mem_map] at hb
      rcases hb with rfl | ⟨i, _, rfl⟩
      · exact Or.inl rfl
      · exact Or.inl rfl
  | figure8 =>
      simp only [getInitialBodies, List.mem_map] at hb
      obtain ⟨i, _, rfl⟩ := hb
      exact Or.inr rfl

/-- Claim C10: every body entering the live simulation — through scenario
initialization of ANY preset (perturbed or not, under the `Math.random`
contract `0 ≤ r`) or through the add-random-body operation — has strictly
positive mass and `collisionRadius` exactly `0.5` (the `|| 0.5`
initialization default), so the resolver's zero-radius opt-out is
unreachable through the public interface. -/
theorem entering_bodies_mass_pos_radius_half
    (rnd prnd arnd : ℕ → ℝ) (hr : ∀ n, 0 ≤ rnd n) (ha : ∀ n, 0 ≤ arnd n)
    (sc : Scenario) (perturb : Bool) (k : ℕ) :
    (∀ b ∈ initializeBodies perturb prnd 0 (getInitialBodies rnd sc),
        0 < b.mass ∧ b.collisionRadius = some 0.5) ∧
      0 < (handleAddBody arnd k).mass ∧
      (handleAddBody arnd k).collisionRadius = some 0.5 := by
  refine ⟨?_, ?_, rfl⟩
  · intro b hb
    obtain ⟨j, d, hd, rfl⟩ := mem_initializeBodies hb
    refine ⟨getInitialBodies_mass_pos hr sc d hd, ?_⟩
    show some (jsOr d.collisionRadius 0.5) = some 0.5
    rcases getInitialBodies_cr sc d hd with h | h <;> rw [h]
    · rw [jsOr_none]
    · rw [jsOr_half]
  · show 0 < 5 + arnd 1 * 10
    nlinarith [ha 1]

/-- Witness for the C10 theorem at the two-body preset with a constant
oracle. -/
theorem entering_bodies_mass_pos_radius_half_witness :
    (∀ n : ℕ, (0 : ℝ) ≤ (fun _ : ℕ => (1 : ℝ) / 2) n) ∧
      0 < (handleAddBody (fun _ : ℕ => (1 : ℝ) / 2) 0).mass ∧
      (handleAddBody (fun _ : ℕ => (1 : ℝ) / 2) 0).collisionRadius = some 0.5 ∧
      (∀ b ∈ initializeBodies false (fun _ : ℕ => (1 : ℝ) / 2) 0
          (getInitialBodies (fun _ : ℕ => (1 : ℝ) / 2) Scenario.twobody),
        0 < b.mass ∧ b.collisionRadius = some 0.5) := by
  have h := entering_bodies_mass_pos_radius_half (fun _ => 1 / 2) (fun _ => 1 / 2)
    (fun _ => 1 / 2) (fun _ => by norm_num) (fun _ => by norm_num) Scenario.twobody false 0
  exact ⟨fun _ => by norm_num, h.2.1, h.2.2, h.1⟩

/-! ## Claim C1: freshness of the first half-kick acceleration -/

/-- An acceleration cache as the integrator leaves it after an earlier
sub-step or frame: a nonzero vector stored for body id `1`. -/
def staleCache : ℝ → Option Vec3 := mapSet (fun _ => none) 1 ⟨1, 0, 0⟩

/-- Claim C1, evaluated: with a nonzero cached acceleration for body 0, the
acceleration the integrator uses for the first half-kick (`firstKickAcc`,
lines 326-329) is the CACHED vector, and it differs from the fresh
`calcAcceleration` of the current positions — the `if (acc.lengthSq() === 0)`
guard reuses stale accelerations instead of recomputing every sub-step. -/
theorem first_kick_uses_stale_cache :
    firstKickAcc 3 false (fun _ => Vec3.zero) [xBody 1 1 0 0 none, xBody 2 1 1 0 none]
        staleCache 0 = ⟨1, 0, 0⟩ ∧
      firstKickAcc 3 false (fun _ => Vec3.zero) [xBody 1 1 0 0 none, xBody 2 1 1 0 none]
          staleCache 0 ≠
        calcAcceleration 3 false [xBody 1 1 0 0 none, xBody 2 1 1 0 none]
          (fun _ => Vec3.zero) 0 := by
  have hid : ([xBody 1 1 0 0 none, xBody 2 1 1 0 none].getD 0 default).id = 1 := rfl
  have hlook : mapLookup staleCache 1 = ⟨1, 0, 0⟩ := by
    unfold mapLookup staleCache mapSet
    norm_num
  have hused : firstKickAcc 3 false (fun _ => Vec3.zero)
      [xBody 1 1 0 0 none, xBody 2 1 1 0 none] staleCache 0 = ⟨1, 0, 0⟩ := by
    unfold firstKickAcc
    rw [hid, hlook]
    rw [if_neg (by simp only [Vec3.lengthSq]; norm_num)]
  refine ⟨hused, ?_⟩
  rw [hused]
  have hsub : (xBody 2 1 1 0 none).position.sub (xBody 1 1 0 0 none).position = ⟨1, 0, 0⟩ := by
    simp only [xBody, Vec3.sub]; rw [Vec3.ext_iff]; norm_num
  have hlsq : ((xBody 2 1 1 0 none).position.sub (xBody 1 1 0 0 none).position).lengthSq = 1 := by
    rw [hsub]; simp only [Vec3.lengthSq]; norm_num
  have hfresh : calcAcceleration 3 false [xBody 1 1 0 0 none, xBody 2 1 1 0 none]
      (fun _ => Vec3.zero) 0 =
      (Vec3.mk 1 0 0).smul (3 * 1 / distCubedOf 1) := by
    rw [calcAcceleration_pair_left]
    rw [accContrib_free (by rw [hlsq]; norm_num)]
    rw [hlsq, hsub]
    rfl
  rw [hfresh]
  have hcube : (5 : ℝ) ≤ distCubedOf 1 := by
    have h1 : distCubedOf 1 = (5 : ℝ) ^ (1.5 : ℝ) := by unfold distCubedOf softening; norm_num
    have h2 : (5 : ℝ) ^ (1 : ℝ) ≤ (5 : ℝ) ^ (1.5 : ℝ) :=
      Real.rpow_le_rpow_of_exponent_le (by norm_num) (by norm_num)
    rw [h1]
    calc (5 : ℝ) = (5 : ℝ) ^ (1 : ℝ) := (Real.rpow_one 5).symm
      _ ≤ (5 : ℝ) ^ (1.5 : ℝ) := h2
  have hpos : 0 < distCubedOf 1 := distCubedOf_pos (by norm_num)
  intro h
  rw [Vec3.ext_iff] at h
  have hx := h.1
  simp only [Vec3.smul] at hx
  have : distCubedOf 1 = 3 := by
    field_simp at hx
    linarith
  linarith

/-! ## Claim C4: timeScale = 0 -/

/-- Writing a slot's own (defaulted) element back into a list is the
identity. -/
theorem set_getD_self {α : Type _} (d : α) : ∀ (l : List α) (i : ℕ), l.set i (l.getD i d) = l := by
  intro l
  induction l with
  | nil => intro i; rfl
  | cons a t ih =>
      intro i
      cases i with
      | zero => rfl
      | succ k =>
          show a :: t.set k (t.getD k d) = a :: t
          rw [ih k]

/-- A fold whose every step fixes the accumulator fixes it. -/
theorem foldl_fixed {α : Type _} {β : Type _} (f : α → β → α) (x : α) :
    ∀ l : List β, (∀ b ∈ l, f x b = x) → l.foldl f x = x := by
  intro l
  induction l with
  | nil => intro _; rfl
  | cons b t ih =>
      intro h
      show t.foldl f (f x b) = x
      rw [h b (List.mem_cons_self b t)]
      exact ih fun c hc => h c (List.mem_cons_of_mem _ hc)

/-- A pair whose actual separation is at least the radius sum is skipped by
the resolver, whatever the random draw: either the displacement is nonzero
and `dist` IS that separation, or both are coincident with radius sum `≤ 0`
and the redrawn `dist ≥ 0` still clears the threshold. -/
theorem resolvePair_of_separated {rnd : Vec3} {A B : Body}
    (h : minSeparation A B ≤ (B.position.sub A.position).length) :
    resolvePair rnd A B = (A, B) := by
  apply resolvePair_of_no_overlap
  by_cases hlen : (B.position.sub A.position).length = 0
  · calc minSeparation A B ≤ 0 := by rw [hlen] at h; exact h
      _ ≤ collisionDist rnd A B := collisionDist_nonneg rnd A B
  · unfold collisionDist collisionDiff
    rw [if_neg hlen]
    exact h

/-- On a body list with no overlapping pair the resolver is the identity:
every pair is skipped and both slots are rewritten with themselves. -/
theorem resolveCollisions_no_overlap (rnd : ℕ → ℕ → Vec3) (bs : List Body)
    (H : ∀ i j, i < bs.length → j < bs.length → i < j →
        minSeparation (bs.getD i default) (bs.getD j default) ≤
          ((bs.getD j default).position.sub (bs.getD i default).position).length) :
    resolveCollisions true rnd bs = bs := by
  unfold resolveCollisions
  rw [if_neg (by decide : ¬ (true = false))]
  apply foldl_fixed
  intro i hi
  apply foldl_fixed
  intro j hj
  by_cases hij : i + 1 ≤ j
  · rw [if_pos hij]
    have hi' : i < bs.length := List.mem_range.mp hi
    have hj' : j < bs.length := List.mem_range.mp hj
    show ((bs.set i (resolvePair (rnd i j) (bs.getD i default) (bs.getD j default)).1).set j
        (resolvePair (rnd i j) (bs.getD i default) (bs.getD j default)).2) = bs
    rw [resolvePair_of_separated (H i j hi' hj' hij)]
    show (bs.set i (bs.getD i default)).set j (bs.getD j default) = bs
    rw [set_getD_self, set_getD_self]
  · rw [if_neg hij]

/-- Claim C4, amended: `timeScale = 0` freezes the simulation both with
collisions disabled (any body list) and with collisions enabled when no pair
of the list overlaps — any number of sub-steps (hence any number of
integrator invocations) leaves every body's position and velocity exactly
unchanged.  (With collisions enabled and an overlapping pair the claim
fails; see the counterexample.) -/
theorem timeScale_zero_keeps_bodies (g : ℝ) (rs : ℕ → StepRnd) (n : ℕ) (st : SimState) :
    (runSteps g false rs (frameDt 0) n st).bodies = st.bodies ∧
      ((∀ i j, i < st.bodies.length → j < st.bodies.length → i < j →
          minSeparation (st.bodies.getD i default) (st.bodies.getD j default) ≤
            ((st.bodies.getD j default).position.sub
              (st.bodies.getD i default).position).length) →
        (runSteps g true rs (frameDt 0) n st).bodies = st.bodies) := by
  constructor
  · rw [frameDt_zero]
    exact runSteps_bodies_dt_zero_nocollide g rs n st
  · intro H
    rw [frameDt_zero]
    induction n with
    | zero => rfl
    | succ k ih =>
        show (subStep g true (rs k) 0 (runSteps g true rs 0 k st)).bodies = st.bodies
        rw [subStep_bodies_dt_zero, ih, resolveCollisions_no_overlap (rs k).collide st.bodies H]

/-- A two-body state whose bodies are separated by more than the radius
sum. -/
def separatedState : SimState :=
  ⟨[xBody 1 1 0 0 (some 1), xBody 2 1 3 0 (some 1)], fun _ => none⟩

/-- Witness for the amended C4 theorem: a concrete separated pair is frozen
by a full invocation both with collisions disabled and enabled. -/
theorem timeScale_zero_keeps_bodies_witness :
    (runSteps 3 false (fun _ => zeroStepRnd) (frameDt 0) SUB_STEPS separatedState).bodies =
        separatedState.bodies ∧
      (runSteps 3 true (fun _ => zeroStepRnd) (frameDt 0) SUB_STEPS separatedState).bodies =
        separatedState.bodies := by
  have h := timeScale_zero_keeps_bodies 3 (fun _ => zeroStepRnd) SUB_STEPS separatedState
  refine ⟨h.1, h.2 ?_⟩
  intro i j hi hj hij
  have hlen : separatedState.bodies.length = 2 := rfl
  rw [hlen] at hi hj
  have hi0 : i = 0 := by omega
  have hj1 : j = 1 := by omega
  subst hi0 hj1
  show minSeparation (xBody 1 1 0 0 (some 1)) (xBody 2 1 3 0 (some 1)) ≤
    ((xBody 2 1 3 0 (some 1)).position.sub (xBody 1 1 0 0 (some 1)).position).length
  have hsub : (xBody 2 1 3 0 (some 1)).position.sub (xBody 1 1 0 0 (some 1)).position =
      ⟨3, 0, 0⟩ := by
    simp only [xBody, Vec3.sub]
    rw [Vec3.ext_iff]
    norm_num
  rw [hsub, Vec3.length_xaxis, abs_of_pos (by norm_num : (0:ℝ) < 3)]
  norm_num [minSeparation, xBody]

/-! ## Resolver computation lemmas for concrete scenarios -/

/-- `resolveCollisions` on a two-body list is a single `resolvePair`. -/
theorem resolveCollisions_pair (rnd : ℕ → ℕ → Vec3) (A B : Body) :
    resolveCollisions true rnd [A, B] =
      [(resolvePair (rnd 0 1) A B).1, (resolvePair (rnd 0 1) A B).2] := by
  unfold resolveCollisions
  norm_num [range_two]

/-- `resolveCollisions` on a three-body list processes pairs `(0,1)`, `(0,2)`,
`(1,2)` in order, each reading the already-updated slots. -/
theorem resolveCollisions_triple (rnd : ℕ → ℕ → Vec3) (A B C : Body) :
    resolveCollisions true rnd [A, B, C] =
      [(resolvePair (rnd 0 2) (resolvePair (rnd 0 1) A B).1 C).1,
       (resolvePair (rnd 1 2) (resolvePair (rnd 0 1) A B).2
          (resolvePair (rnd 0 2) (resolvePair (rnd 0 1) A B).1 C).2).1,
       (resolvePair (rnd 1 2) (resolvePair (rnd 0 1) A B).2
          (resolvePair (rnd 0 2) (resolvePair (rnd 0 1) A B).1 C).2).2] := by
  unfold resolveCollisions
  norm_num [range_three]

/-- Overlapping x-axis pair at rest, left body first: pure positional
correction by half the penetration each, no impulse. -/
theorem resolvePair_xaxis_static (rnd : Vec3) (idA idB mA mB a b rA rB : ℝ)
    (hab : a < b) (hover : b - a < rA + rB) :
    resolvePair rnd (xBody idA mA a 0 (some rA)) (xBody idB mB b 0 (some rB)) =
      (xBody idA mA (a - (rA + rB - (b - a)) * 0.5) 0 (some rA),
       xBody idB mB (b + (rA + rB - (b - a)) * 0.5) 0 (some rB)) := by
  have hx := xaxis_collision_data rnd
    (show (xBody idA mA a 0 (some rA)).position = ⟨a, 0, 0⟩ from rfl)
    (show (xBody idB mB b 0 (some rB)).position = ⟨b, 0, 0⟩ from rfl) hab
  have hmin : minSeparation (xBody idA mA a 0 (some rA)) (xBody idB mB b 0 (some rB)) =
      rA + rB := rfl
  have hno : ¬ minSeparation (xBody idA mA a 0 (some rA)) (xBody idB mB b 0 (some rB)) ≤
      collisionDist rnd (xBody idA mA a 0 (some rA)) (xBody idB mB b 0 (some rB)) := by
    rw [hmin, hx.2.1]
    linarith
  have hvel : velAlongNormal rnd (xBody idA mA a 0 (some rA)) (xBody idB mB b 0 (some rB)) = 0 := by
    unfold velAlongNormal
    rw [hx.2.2]
    simp only [xBody, Vec3.sub, Vec3.dot]
    norm_num
  rw [resolvePair_of_overlap_separating hno (by rw [hvel]; norm_num)]
  have hsep : separationVec rnd (xBody idA mA a 0 (some rA)) (xBody idB mB b 0 (some rB)) =
      ⟨(rA + rB - (b - a)) * 0.5, 0, 0⟩ := by
    unfold separationVec
    rw [hx.2.2, hmin, hx.2.1]
    simp only [Vec3.smul]
    rw [Vec3.ext_iff]
    norm_num
  unfold sepBodyA sepBodyB
  rw [hsep]
  simp only [xBody, Vec3.addScaled, Prod.mk.injEq, Body.mk.injEq, Vec3.ext_iff]
  norm_num
  ring

/-- Overlapping x-axis pair at rest, right body first (`b < a`). -/
theorem resolvePair_xaxis_static_rev (rnd : Vec3) (idA idB mA mB a b rA rB : ℝ)
    (hab : b < a) (hover : a - b < rA + rB) :
    resolvePair rnd (xBody idA mA a 0 (some rA)) (xBody idB mB b 0 (some rB)) =
      (xBody idA mA (a + (rA + rB - (a - b)) * 0.5) 0 (some rA),
       xBody idB mB (b - (rA + rB - (a - b)) * 0.5) 0 (some rB)) := by
  have hx := xaxis_collision_data_rev rnd
    (show (xBody idA mA a 0 (some rA)).position = ⟨a, 0, 0⟩ from rfl)
    (show (xBody idB mB b 0 (some rB)).position = ⟨b, 0, 0⟩ from rfl) hab
  have hmin : minSeparation (xBody idA mA a 0 (some rA)) (xBody idB mB b 0 (some rB)) =
      rA + rB := rfl
  have hno : ¬ minSeparation (xBody idA mA a 0 (some rA)) (xBody idB mB b 0 (some rB)) ≤
      collisionDist rnd (xBody idA mA a 0 (some rA)) (xBody idB mB b 0 (some rB)) := by
    rw [hmin, hx.2.1]
    linarith
  have hvel : velAlongNormal rnd (xBody idA mA a 0 (some rA)) (xBody idB mB b 0 (some rB)) = 0 := by
    unfold velAlongNormal
    rw [hx.2.2]
    simp only [xBody, Vec3.sub, Vec3.dot]
    norm_num
  rw [resolvePair_of_overlap_separating hno (by rw [hvel]; norm_num)]
  have hsep : separationVec rnd (xBody idA mA a 0 (some rA)) (xBody idB mB b 0 (some rB)) =
      ⟨-((rA + rB - (a - b)) * 0.5), 0, 0⟩ := by
    unfold separationVec
    rw [hx.2.2, hmin, hx.2.1]
    simp only [Vec3.smul]
    rw [Vec3.ext_iff]
    norm_num
  unfold sepBodyA sepBodyB
  rw [hsep]
  simp only [xBody, Vec3.addScaled, Prod.mk.injEq, Body.mk.injEq, Vec3.ext_iff]
  norm_num
  ring

/-- Separated x-axis pair, left body first: skipped. -/
theorem resolvePair_xaxis_skip (rnd : Vec3) (A B : Body) {a b : ℝ}
    (hA : A.position = ⟨a, 0, 0⟩) (hB : B.position = ⟨b, 0, 0⟩) (hab : a < b)
    (hsep : minSeparation A B ≤ b - a) :
    resolvePair rnd A B = (A, B) := by
  have hx := xaxis_collision_data rnd hA hB hab
  exact resolvePair_of_no_overlap (by rw [hx.2.1]; exact hsep)

/-- Claim C4, counterexample state: two overlapping radius-1 bodies. -/
def overlapState : SimState :=
  ⟨[xBody 1 1 0 0 (some 1), xBody 2 1 1 0 (some 1)], fun _ => none⟩

theorem overlap_first_resolution :
    resolvePair Vec3.zero (xBody 1 1 0 0 (some 1)) (xBody 2 1 1 0 (some 1)) =
      (xBody 1 1 (-0.5) 0 (some 1), xBody 2 1 1.5 0 (some 1)) := by
  rw [resolvePair_xaxis_static Vec3.zero 1 2 1 1 0 1 1 1 (by norm_num) (by norm_num)]
  norm_num

/-- After the first `dt = 0` sub-step the counterexample pair sits at exact
contact and every further sub-step keeps it there. -/
theorem overlap_after_steps (k : ℕ) :
    (runSteps 3 true (fun _ => zeroStepRnd) 0 (k + 1) overlapState).bodies =
      [xBody 1 1 (-0.5) 0 (some 1), xBody 2 1 1.5 0 (some 1)] := by
  induction k with
  | zero =>
      show (subStep 3 true zeroStepRnd 0 overlapState).bodies = _
      rw [subStep_bodies_dt_zero]
      show resolveCollisions true zeroRnd [xBody 1 1 0 0 (some 1), xBody 2 1 1 0 (some 1)] = _
      rw [resolveCollisions_pair]
      rw [show zeroRnd 0 1 = Vec3.zero from rfl, overlap_first_resolution]
  | succ k ih =>
      show (subStep 3 true zeroStepRnd 0
        (runSteps 3 true (fun _ => zeroStepRnd) 0 (k + 1) overlapState)).bodies = _
      rw [subStep_bodies_dt_zero, ih, resolveCollisions_pair]
      rw [show zeroStepRnd.collide 0 1 = Vec3.zero from rfl]
      rw [resolvePair_xaxis_skip Vec3.zero _ _ rfl rfl
        (by norm_num : (-0.5 : ℝ) < 1.5) (by norm_num [minSeparation, xBody])]

/-- Claim C4, counterexample: with collisions enabled and `timeScale = 0`
(`dt = 0`), one full integrator invocation (`SUB_STEPS` sub-steps) MOVES an
overlapping body — the Collision Resolver runs regardless of `dt`, so the
claim fails for body lists with overlap when collisions are enabled. -/
theorem timeScale_zero_moves_overlapping_counterexample :
    ((runSteps 3 true (fun _ => zeroStepRnd) (frameDt 0) SUB_STEPS overlapState).bodies.getD 0
        default).position ≠
      (overlapState.bodies.getD 0 default).position := by
  rw [frameDt_zero]
  rw [show SUB_STEPS = 7 + 1 from rfl, overlap_after_steps 7]
  intro h
  rw [show (overlapState.bodies.getD 0 default).position = ⟨0, 0, 0⟩ from rfl] at h
  rw [show ([xBody 1 1 (-0.5) 0 (some 1), xBody 2 1 1.5 0 (some 1)].getD 0 default).position =
    ⟨-0.5, 0, 0⟩ from rfl] at h
  rw [Vec3.ext_iff] at h
  have := h.1
  norm_num at this

/-! ## Claim C5: post-resolution separation invariant -/

/-- The `.position` of both outputs of an overlapping `resolvePair` is the
separated position, with or without impulse. -/
theorem resolvePair_positions {rnd : Vec3} {A B : Body}
    (h : ¬ minSeparation A B ≤ collisionDist rnd A B) :
    (resolvePair rnd A B).1.position = (sepBodyA rnd A B).position ∧
      (resolvePair rnd A B).2.position = (sepBodyB rnd A B).position := by
  unfold resolvePair
  rw [if_neg h]
  split
  · exact ⟨rfl, rfl⟩
  · exact ⟨rfl, rfl⟩

/-- Claim C5, amended: on a TWO-body list whose positions differ, one
resolver pass guarantees separation at least the radius sum (the skip case
already satisfies it; the overlap case separates to exactly the radius
sum). -/
theorem resolver_separates_distinct_pair (rnd : ℕ → ℕ → Vec3) (A B : Body)
    (h : A.position ≠ B.position) :
    minSeparation A B ≤
      (((resolveCollisions true rnd [A, B]).getD 1 default).position.sub
        ((resolveCollisions true rnd [A, B]).getD 0 default).position).length := by
  have hdne : B.position.sub A.position ≠ Vec3.zero := fun hz =>
    h (Vec3.sub_eq_zero_iff.mp hz).symm
  have hlne : (B.position.sub A.position).length ≠ 0 := fun hl =>
    hdne (Vec3.length_eq_zero_iff.mp hl)
  have hcd : collisionDiff (rnd 0 1) A B = B.position.sub A.position := by
    unfold collisionDiff
    rw [if_neg hlne]
  have hdist : collisionDist (rnd 0 1) A B = (B.position.sub A.position).length := by
    unfold collisionDist
    rw [hcd]
  have hdpos : 0 < (B.position.sub A.position).length :=
    lt_of_le_of_ne (Vec3.length_nonneg _) (Ne.symm hlne)
  rw [resolveCollisions_pair]
  by_cases hcase : minSeparation A B ≤ collisionDist (rnd 0 1) A B
  · rw [resolvePair_of_no_overlap hcase]
    rw [hdist] at hcase
    simpa using hcase
  · have hpos := resolvePair_positions hcase
    have hgd1 : ([(resolvePair (rnd 0 1) A B).1, (resolvePair (rnd 0 1) A B).2].getD 0
        default) = (resolvePair (rnd 0 1) A B).1 := rfl
    have hgd2 : ([(resolvePair (rnd 0 1) A B).1, (resolvePair (rnd 0 1) A B).2].getD 1
        default) = (resolvePair (rnd 0 1) A B).2 := rfl
    rw [hgd1, hgd2, hpos.1, hpos.2]
    unfold sepBodyA sepBodyB
    have hS : separationVec (rnd 0 1) A B =
        (B.position.sub A.position).smul
          ((minSeparation A B - (B.position.sub A.position).length) * 0.5 /
            (B.position.sub A.position).length) := by
      unfold separationVec collisionNormal
      rw [hcd, hdist, jsDivisor_of_ne hlne]
      rw [Vec3.ext_iff]
      simp only [Vec3.smul]
      refine ⟨?_, ?_, ?_⟩ <;> ring
    have hdiff : ((B.position.addScaled (separationVec (rnd 0 1) A B) 1).sub
        (A.position.addScaled (separationVec (rnd 0 1) A B) (-1))) =
        (B.position.sub A.position).smul
          (minSeparation A B / (B.position.sub A.position).length) := by
      rw [Vec3.sep_shift, hS, Vec3.smul_smul, Vec3.add_self_smul]
      congr 1
      field_simp
      ring
    show minSeparation A B ≤ ((B.position.addScaled (separationVec (rnd 0 1) A B) 1).sub
        (A.position.addScaled (separationVec (rnd 0 1) A B) (-1))).length
    rw [hdiff, Vec3.length_smul]
    rw [hdist] at hcase
    have hmpos : 0 < minSeparation A B := by
      by_contra hm
      push_neg at hm
      exact hcase (le_trans hm (le_of_lt hdpos))
    rw [abs_of_pos (by positivity)]
    have hc : (B.position.sub A.position).length *
        (minSeparation A B / (B.position.sub A.position).length) = minSeparation A B := by
      field_simp
    rw [hc]

/-- Witness for the amended C5 theorem at a concrete distinct-position
pair. -/
theorem resolver_separates_distinct_pair_witness :
    (xBody 1 1 0 0 (some 1)).position ≠ (xBody 2 1 1 0 (some 1)).position ∧
      minSeparation (xBody 1 1 0 0 (some 1)) (xBody 2 1 1 0 (some 1)) ≤
        (((resolveCollisions true zeroRnd
              [xBody 1 1 0 0 (some 1), xBody 2 1 1 0 (some 1)]).getD 1 default).position.sub
          ((resolveCollisions true zeroRnd
              [xBody 1 1 0 0 (some 1), xBody 2 1 1 0 (some 1)]).getD 0 default).position).length :=
  ⟨by intro h; rw [Vec3.ext_iff] at h; have := h.1; norm_num [xBody] at this,
   resolver_separates_distinct_pair zeroRnd _ _
     (by intro h; rw [Vec3.ext_iff] at h; have := h.1; norm_num [xBody] at this)⟩

/-- Claim C5, counterexample: one resolver pass over the overlapping chain
`x = 0, 0.5, 1` (radii all `1`) ends with bodies 0 and 2 only `1.0625`
apart — less than their radius sum `2` — because resolving pair `(1,2)`
pushed body 2 back toward body 0 after pair `(0,2)` had been processed.  The
single pass does NOT establish the separation invariant for every pair. -/
theorem single_pass_residual_overlap_counterexample :
    (((resolveCollisions true zeroRnd
          [xBody 1 1 0 0 (some 1), xBody 2 1 0.5 0 (some 1), xBody 3 1 1 0 (some 1)]).getD 2
          default).position.sub
        ((resolveCollisions true zeroRnd
          [xBody 1 1 0 0 (some 1), xBody 2 1 0.5 0 (some 1), xBody 3 1 1 0 (some 1)]).getD 0
          default).position).length <
      minSeparation
        ((resolveCollisions true zeroRnd
          [xBody 1 1 0 0 (some 1), xBody 2 1 0.5 0 (some 1), xBody 3 1 1 0 (some 1)]).getD 0
          default)
        ((resolveCollisions true zeroRnd
          [xBody 1 1 0 0 (some 1), xBody 2 1 0.5 0 (some 1), xBody 3 1 1 0 (some 1)]).getD 2
          default) := by
  have hp : resolvePair Vec3.zero (xBody 1 1 0 0 (some 1)) (xBody 2 1 0.5 0 (some 1)) =
      (xBody 1 1 (-0.75) 0 (some 1), xBody 2 1 1.25 0 (some 1)) := by
    rw [resolvePair_xaxis_static Vec3.zero 1 2 1 1 0 0.5 1 1 (by norm_num) (by norm_num)]
    norm_num
  have hq : resolvePair Vec3.zero (xBody 1 1 (-0.75) 0 (some 1)) (xBody 3 1 1 0 (some 1)) =
      (xBody 1 1 (-0.875) 0 (some 1), xBody 3 1 1.125 0 (some 1)) := by
    rw [resolvePair_xaxis_static Vec3.zero 1 3 1 1 (-0.75) 1 1 1 (by norm_num) (by norm_num)]
    norm_num
  have hs : resolvePair Vec3.zero (xBody 2 1 1.25 0 (some 1)) (xBody 3 1 1.125 0 (some 1)) =
      (xBody 2 1 2.1875 0 (some 1), xBody 3 1 0.1875 0 (some 1)) := by
    rw [resolvePair_xaxis_static_rev Vec3.zero 2 3 1 1 1.25 1.125 1 1 (by norm_num) (by norm_num)]
    norm_num
  have hlist : resolveCollisions true zeroRnd
      [xBody 1 1 0 0 (some 1), xBody 2 1 0.5 0 (some 1), xBody 3 1 1 0 (some 1)] =
      [xBody 1 1 (-0.875) 0 (some 1), xBody 2 1 2.1875 0 (some 1), xBody 3 1 0.1875 0 (some 1)] := by
    rw [resolveCollisions_triple]
    rw [show zeroRnd 0 1 = Vec3.zero from rfl, show zeroRnd 0 2 = Vec3.zero from rfl,
      show zeroRnd 1 2 = Vec3.zero from rfl]
    rw [hp]
    dsimp only
    rw [hq]
    dsimp only
    rw [hs]
  rw [hlist]
  have hpos : ((Vec3.mk (0.1875 : ℝ) 0 0).sub ⟨-0.875, 0, 0⟩) = ⟨1.0625, 0, 0⟩ := by
    rw [Vec3.ext_iff]
    simp only [Vec3.sub]
    norm_num
  show ((Vec3.mk (0.1875 : ℝ) 0 0).sub ⟨-0.875, 0, 0⟩).length < minSeparation _ _
  rw [hpos, Vec3.length_xaxis, abs_of_pos (by norm_num : (0:ℝ) < (1.0625 : ℝ))]
  norm_num [minSeparation, xBody]

/-! ## Claim C9: division-by-zero safety -/

/-- Claim C9, amended: with every body's mass STRICTLY POSITIVE, no divisor
of the force evaluator or the Collision Resolver vanishes: the Plummer
denominator is at least `softening³ = 8`, the `dist || 1` divisor of the
collision normal (and of three.js `normalize`) is never zero, and the
impulse denominator `1/m_A + 1/m_B` is positive. -/
theorem no_vanishing_divisor_with_positive_masses :
    (∀ dsq : ℝ, 0 ≤ dsq → 8 ≤ distCubedOf dsq ∧ distCubedOf dsq ≠ 0) ∧
    (∀ d : ℝ, jsDivisor d ≠ 0) ∧
    (∀ A B : Body, 0 < A.mass → 0 < B.mass → 0 < impulseDenom A B) := by
  refine ⟨fun dsq h => ⟨distCubedOf_ge_eight h, ?_⟩, jsDivisor_ne_zero, fun A B hA hB => ?_⟩
  · have := distCubedOf_ge_eight h
    intro h0
    rw [h0] at this
    norm_num at this
  · unfold impulseDenom
    have h1 : 0 < 1 / A.mass := by positivity
    have h2 : 0 < 1 / B.mass := by positivity
    linarith

/-- Witness for the amended C9 theorem at concrete inputs. -/
theorem no_vanishing_divisor_witness :
    (0 : ℝ) ≤ 1 ∧ (8 : ℝ) ≤ distCubedOf 1 ∧ jsDivisor 0 ≠ 0 ∧
      0 < impulseDenom (xBody 1 1 0 0 none) (xBody 2 1 0 0 none) :=
  ⟨by norm_num,
   (no_vanishing_divisor_with_positive_masses.1 1 (by norm_num)).1,
   no_vanishing_divisor_with_positive_masses.2.1 0,
   no_vanishing_divisor_with_positive_masses.2.2 _ _ (by norm_num [xBody]) (by norm_num [xBody])⟩

/-- Claim C9, counterexample: with merely NONZERO masses (`1` and `-1`), an
overlapping pair that takes the impulse branch (`velAlongNormal < 0`) has
impulse denominator `1/m_A + 1/m_B = 0` — the resolver divides by zero, so
nonzero mass alone does not rule out division by zero. -/
theorem impulse_division_by_zero_counterexample :
    (xBody 1 1 0 (-1) (some 1)).mass ≠ 0 ∧
      (xBody 2 (-1) 1 1 (some 1)).mass ≠ 0 ∧
      ¬ minSeparation (xBody 1 1 0 (-1) (some 1)) (xBody 2 (-1) 1 1 (some 1)) ≤
          collisionDist Vec3.zero (xBody 1 1 0 (-1) (some 1)) (xBody 2 (-1) 1 1 (some 1)) ∧
      velAlongNormal Vec3.zero (xBody 1 1 0 (-1) (some 1)) (xBody 2 (-1) 1 1 (some 1)) < 0 ∧
      impulseDenom (xBody 1 1 0 (-1) (some 1)) (xBody 2 (-1) 1 1 (some 1)) = 0 := by
  have hx := xaxis_collision_data Vec3.zero
    (show (xBody 1 1 0 (-1) (some 1)).position = ⟨0, 0, 0⟩ from rfl)
    (show (xBody 2 (-1) 1 1 (some 1)).position = ⟨1, 0, 0⟩ from rfl)
    (by norm_num : (0:ℝ) < 1)
  refine ⟨by norm_num [xBody], by norm_num [xBody], ?_, ?_, ?_⟩
  · rw [hx.2.1]
    simp only [minSeparation, xBody]
    norm_num
  · unfold velAlongNormal
    rw [hx.2.2]
    simp only [xBody, Vec3.sub, Vec3.dot]
    norm_num
  · unfold impulseDenom
    simp only [xBody]
    norm_num

/-! ## Claim C2: head-on equal-mass collision -/

/-- Claim C2, evaluated at its own scenario: two overlapping equal-mass
bodies of radius `1` approaching head-on (`A` at `x=0` moving `+x`, `B` at
`x=1` moving `-x`).  One resolver pass restores separation `2 = r_A + r_B`,
but the velocities are UNCHANGED: `velAlongNormal = (v_A - v_B)·n = +2` is
not `< 0`, so the impulse branch is skipped for approaching bodies and the
relative normal velocity is not reversed or scaled by `0.8`. -/
theorem head_on_pair_velocities_unchanged :
    (resolvePair Vec3.zero (xBody 1 1 0 1 (some 1)) (xBody 2 1 1 (-1) (some 1))).1.velocity =
        (xBody 1 1 0 1 (some 1)).velocity ∧
      (resolvePair Vec3.zero (xBody 1 1 0 1 (some 1)) (xBody 2 1 1 (-1) (some 1))).2.velocity =
        (xBody 2 1 1 (-1) (some 1)).velocity ∧
      velAlongNormal Vec3.zero (xBody 1 1 0 1 (some 1)) (xBody 2 1 1 (-1) (some 1)) = 2 ∧
      ((resolvePair Vec3.zero (xBody 1 1 0 1 (some 1)) (xBody 2 1 1 (-1) (some 1))).2.position.sub
          (resolvePair Vec3.zero (xBody 1 1 0 1 (some 1)) (xBody 2 1 1 (-1) (some 1))).1.position).length =
        minSeparation (xBody 1 1 0 1 (some 1)) (xBody 2 1 1 (-1) (some 1)) := by
  have hx := xaxis_collision_data Vec3.zero
    (show (xBody 1 1 0 1 (some 1)).position = ⟨0, 0, 0⟩ from rfl)
    (show (xBody 2 1 1 (-1) (some 1)).position = ⟨1, 0, 0⟩ from rfl)
    (by norm_num : (0:ℝ) < 1)
  have hmin : minSeparation (xBody 1 1 0 1 (some 1)) (xBody 2 1 1 (-1) (some 1)) = 2 := by
    norm_num [minSeparation, xBody]
  have hvel : velAlongNormal Vec3.zero (xBody 1 1 0 1 (some 1)) (xBody 2 1 1 (-1) (some 1)) = 2 := by
    unfold velAlongNormal
    rw [hx.2.2]
    simp only [xBody, Vec3.sub, Vec3.dot]
    norm_num
  have hno : ¬ minSeparation (xBody 1 1 0 1 (some 1)) (xBody 2 1 1 (-1) (some 1)) ≤
      collisionDist Vec3.zero (xBody 1 1 0 1 (some 1)) (xBody 2 1 1 (-1) (some 1)) := by
    rw [hmin, hx.2.1]; norm_num
  have hres := resolvePair_of_overlap_separating hno (by rw [hvel]; norm_num)
  have hsep : separationVec Vec3.zero (xBody 1 1 0 1 (some 1)) (xBody 2 1 1 (-1) (some 1)) =
      ⟨0.5, 0, 0⟩ := by
    unfold separationVec
    rw [hx.2.2, hmin, hx.2.1]
    simp only [Vec3.smul, Vec3.mk.injEq]
    norm_num
  rw [hres]
  refine ⟨rfl, rfl, hvel, ?_⟩
  unfold sepBodyA sepBodyB
  rw [hsep, hmin]
  simp only [xBody, Vec3.addScaled, Vec3.sub]
  have h2 : (Vec3.mk (1 + 0.5 * 1 - (0 + 0.5 * (-1))) (0 + 0 * 1 - (0 + 0 * (-1)))
      (0 + 0 * 1 - (0 + 0 * (-1)))).length = 2 := by
    have : (1 + 0.5 * 1 - (0 + 0.5 * (-1)) : ℝ) = 2 := by norm_num
    rw [show (Vec3.mk (1 + 0.5 * 1 - (0 + 0.5 * (-1))) (0 + 0 * 1 - (0 + 0 * (-1)))
        (0 + 0 * 1 - (0 + 0 * (-1))) : Vec3) = ⟨2, 0, 0⟩ by rw [Vec3.ext_iff]; norm_num]
    rw [Vec3.length_xaxis]
    norm_num
  exact h2

end ThreeBody
